import Mathlib

/-!
Verification of the sound-visualizer repository: a shallow embedding of the
audio feature extractor (AudioEngine), the nine visual effects (Oscilloscope,
Spectrum, Circular, Particles, Starfield, Plasma, Matrix, Terrain, Geiss) and
the VisualizerEngine switcher, together with theorems settling the behavioral
claims about them.

Modelling conventions:
- JavaScript numbers are modelled as `Option ℚ` (named `JQ`): `some q` is a
  finite number with exact rational value `q`, `none` stands for a non-finite
  result (NaN or an infinity; the code paths the claims touch only ever
  produce non-finite values through zero-denominator division or reads past
  the end of a typed array, and every comparison treats NaN and infinities
  produced there alike, so the conflation is sound for the statements below).
  Arithmetic on `JQ` propagates `none`; comparisons involving `none` are
  false, exactly as NaN comparisons are in JavaScript.
- Reads past the end of a typed array yield undefined, which poisons
  arithmetic to NaN; `jsIndex` returns `none` in that case.
- Literal constants such as 0.1, 0.5, 0.98 are embedded as the exact
  rationals they denote.  Where the code floors a product of such constants
  with small integers (band boundaries, bar indices), the double-precision
  result has the same floor as the exact rational one for every realistic
  buffer size, so the embedding uses the exact floor.
- Math.random() is modelled by an injectable stream `rng : ℕ → ℚ` together
  with an explicit cursor threaded through each render, consumed in exactly
  the order the source consumes Math.random().
- Transcendental library functions (cos, sin, atan2, sqrt on doubles) are
  not exactly representable; renders that use them take them as explicit
  function parameters.  No claim below depends on their values.
-/

/-- JavaScript number: a finite rational or a non-finite value (NaN). -/
abbrev JQ := Option ℚ

namespace JQ

instance : Add JQ := ⟨fun a b => match a, b with
  | some x, some y => some (x + y)
  | _, _ => none⟩

instance : Sub JQ := ⟨fun a b => match a, b with
  | some x, some y => some (x - y)
  | _, _ => none⟩

instance : Mul JQ := ⟨fun a b => match a, b with
  | some x, some y => some (x * y)
  | _, _ => none⟩

instance : Neg JQ := ⟨fun a => match a with
  | some x => some (-x)
  | none => none⟩

instance (n : ℕ) : OfNat JQ n := ⟨some n⟩

/-- Division; a zero denominator produces a non-finite result (NaN or an
infinity in JavaScript), embedded as `none`. -/
def div (a b : JQ) : JQ := match a, b with
  | some x, some y => if y = 0 then none else some (x / y)
  | _, _ => none

/-- Comparison a < b; false when either side is NaN, as in JavaScript. -/
def lt (a b : JQ) : Bool := match a, b with
  | some x, some y => decide (x < y)
  | _, _ => false

/-- Comparison a <= b; false when either side is NaN. -/
def le (a b : JQ) : Bool := match a, b with
  | some x, some y => decide (x ≤ y)
  | _, _ => false

/-- Math.floor; NaN floors to NaN. -/
def floor (a : JQ) : JQ := match a with
  | some x => some (Int.floor x)
  | none => none

/-- Loop trip count of `for (let i = 0; i < a; i++)` for a JavaScript
number `a`: zero when `a` is NaN or nonpositive. -/
def toCount (a : JQ) : ℕ := match a with
  | some x => (Int.ceil x).toNat
  | none => 0

/-- Read `data[i]` from a typed array embedded as a list; out of range is
undefined, which poisons arithmetic to NaN. -/
def jsIndex (data : List ℕ) (i : ℕ) : JQ := match data.get? i with
  | some v => some v
  | none => none

end JQ

/-! AudioEngine feature accessors (src/audio/AudioEngine.ts).  Each accessor
reads the current frequency snapshot (values 0..255) and reduces it to a
scalar; an empty snapshot short-circuits to 0 before any division. -/

/-- Sum of a byte buffer, accumulated as an exact rational (sums of at most
2^53 bytes are exact in doubles, so the JavaScript loop computes the same
value). -/
def qsum (l : List ℕ) : ℚ := l.foldr (fun (v : ℕ) (acc : ℚ) => (v : ℚ) + acc) 0

/-- Mean of the whole snapshot divided by 255 (AudioEngine.getAverageAmplitude). -/
def getAverageAmplitude (data : List ℕ) : JQ :=
  if data.length = 0 then some 0 else
    JQ.div (JQ.div (some (qsum data)) (some data.length)) (some 255)

/-- Mean of the first floor(N·0.1) bins divided by 255
(AudioEngine.getBassAmplitude); the divisor bassRange = floor(N·0.1) is zero
when N < 10. -/
def getBassAmplitude (data : List ℕ) : JQ :=
  if data.length = 0 then some 0 else
    JQ.div (JQ.div (some (qsum (data.take (data.length / 10))))
      (some ((data.length / 10 : ℕ) : ℚ))) (some 255)

/-- Mean of bins floor(N·0.1) .. floor(N·0.5) divided by 255
(AudioEngine.getMidAmplitude); the divisor is end - start. -/
def getMidAmplitude (data : List ℕ) : JQ :=
  if data.length = 0 then some 0 else
    JQ.div (JQ.div (some (qsum ((data.drop (data.length / 10)).take
        (data.length / 2 - data.length / 10))))
      (some (((data.length / 2 : ℕ) : ℚ) - ((data.length / 10 : ℕ) : ℚ)))) (some 255)

/-- Mean of bins floor(N·0.5) .. N divided by 255
(AudioEngine.getTrebleAmplitude); the divisor is N - start. -/
def getTrebleAmplitude (data : List ℕ) : JQ :=
  if data.length = 0 then some 0 else
    JQ.div (JQ.div (some (qsum (data.drop (data.length / 2))))
      (some ((data.length : ℚ) - ((data.length / 2 : ℕ) : ℚ)))) (some 255)

/-! Arithmetic facts about the accessors. -/

theorem qsum_replicate (n : ℕ) (v : ℕ) : qsum (List.replicate n v) = n * v := by
  induction n with
  | zero => simp [qsum]
  | succ k ih =>
      simp only [List.replicate_succ, qsum, List.foldr_cons] at ih ⊢
      rw [ih]
      push_cast
      ring

theorem qsum_nonneg (l : List ℕ) : 0 ≤ qsum l := by
  induction l with
  | nil => simp [qsum]
  | cons a t ih =>
      simp only [qsum, List.foldr_cons] at ih ⊢
      positivity

theorem qsum_le_of_bounded (l : List ℕ) (h : ∀ v ∈ l, v ≤ 255) :
    qsum l ≤ 255 * l.length := by
  induction l with
  | nil => simp [qsum]
  | cons a t ih =>
      simp only [qsum, List.foldr_cons, List.length_cons] at ih ⊢
      have ha : (a : ℚ) ≤ 255 := by
        exact_mod_cast h a (List.mem_cons_self a t)
      have ht : qsum t ≤ 255 * t.length := ih (fun v hv => h v (List.mem_cons_of_mem a hv))
      push_cast
      simp only [qsum] at ht
      linarith

theorem take_replicate_of_le {n k : ℕ} (v : ℕ) (h : k ≤ n) :
    (List.replicate n v).take k = List.replicate k v := by
  rw [List.take_replicate]
  congr 1
  omega

theorem drop_replicate_eq (n k : ℕ) (v : ℕ) :
    (List.replicate n v).drop k = List.replicate (n - k) v := by
  rw [List.drop_replicate]

theorem div_div_255_bounds (S : ℚ) (c : ℚ) (hc : 0 < c) (h0 : 0 ≤ S)
    (h255 : S ≤ 255 * c) : 0 ≤ S / c / 255 ∧ S / c / 255 ≤ 1 := by
  constructor
  · positivity
  · rw [div_le_one (by norm_num), div_le_iff₀ hc]
    linarith

theorem jq_div_some (a b : ℚ) (hb : b ≠ 0) :
    JQ.div (some a) (some b) = some (a / b) := by
  simp [JQ.div, hb]

/-- Shared helper: the four accessors on a uniform snapshot of N bins of
value v, for N positive and divisible by 10. -/
theorem uniform_features_eq (N v : ℕ) (hN : 0 < N) (hdiv : N % 10 = 0) :
    getAverageAmplitude (List.replicate N v) = some ((v : ℚ) / 255) ∧
    getBassAmplitude (List.replicate N v) = some ((v : ℚ) / 255) ∧
    getMidAmplitude (List.replicate N v) = some ((v : ℚ) / 255) ∧
    getTrebleAmplitude (List.replicate N v) = some ((v : ℚ) / 255) := by
  have h10 : 10 ≤ N := by omega
  have hN0 : ¬ (N = 0) := by omega
  refine ⟨?_, ?_, ?_, ?_⟩
  · simp only [getAverageAmplitude, List.length_replicate]
    rw [if_neg hN0, qsum_replicate,
      jq_div_some _ _ (by exact_mod_cast hN0 : (N : ℚ) ≠ 0),
      jq_div_some _ _ (by norm_num)]
    congr 1
    have hq : (N : ℚ) ≠ 0 := by exact_mod_cast hN0
    field_simp
  · have hble : N / 10 ≤ N := Nat.div_le_self N 10
    have hq : ((N / 10 : ℕ) : ℚ) ≠ 0 := by exact_mod_cast (by omega : ¬ (N / 10 = 0))
    simp only [getBassAmplitude, List.length_replicate]
    rw [if_neg hN0, take_replicate_of_le v hble, qsum_replicate,
      jq_div_some _ _ hq, jq_div_some _ _ (by norm_num)]
    congr 1
    field_simp
  · have hlt : N / 10 < N / 2 := by omega
    simp only [getMidAmplitude, List.length_replicate]
    rw [if_neg hN0, drop_replicate_eq, take_replicate_of_le v (by omega), qsum_replicate]
    have hcast : ((N / 2 : ℕ) : ℚ) - ((N / 10 : ℕ) : ℚ) = ((N / 2 - N / 10 : ℕ) : ℚ) := by
      have h : N / 10 ≤ N / 2 := le_of_lt hlt
      rw [Nat.cast_sub h]
    have hq : ((N / 2 - N / 10 : ℕ) : ℚ) ≠ 0 := by
      exact_mod_cast (by omega : ¬ (N / 2 - N / 10 = 0))
    rw [hcast, jq_div_some _ _ hq, jq_div_some _ _ (by norm_num)]
    congr 1
    field_simp
  · have hlt : N / 2 < N := Nat.div_lt_self hN (by norm_num)
    simp only [getTrebleAmplitude, List.length_replicate]
    rw [if_neg hN0, drop_replicate_eq, qsum_replicate]
    have hcast : (N : ℚ) - ((N / 2 : ℕ) : ℚ) = ((N - N / 2 : ℕ) : ℚ) := by
      rw [Nat.cast_sub (le_of_lt hlt)]
    have hq : ((N - N / 2 : ℕ) : ℚ) ≠ 0 := by
      exact_mod_cast (by omega : ¬ (N - N / 2 = 0))
    rw [hcast, jq_div_some _ _ hq, jq_div_some _ _ (by norm_num)]
    congr 1
    field_simp

/-- C1: for a frequency snapshot of positive length N divisible by 10 in
which every bin holds the same value v with 0 <= v <= 255, the four feature
accessors getAverageAmplitude, getBassAmplitude, getMidAmplitude and
getTrebleAmplitude each return exactly v/255, so all four agree and the
0.1N / 0.5N band boundaries introduce no off-by-one error. -/
theorem C1_uniform_features (N v : ℕ) (hN : 0 < N) (hdiv : N % 10 = 0)
    (hv : v ≤ 255) :
    getAverageAmplitude (List.replicate N v) = some ((v : ℚ) / 255) ∧
    getBassAmplitude (List.replicate N v) = some ((v : ℚ) / 255) ∧
    getMidAmplitude (List.replicate N v) = some ((v : ℚ) / 255) ∧
    getTrebleAmplitude (List.replicate N v) = some ((v : ℚ) / 255) :=
  uniform_features_eq N v hN hdiv

/-- C1 witness: the theorem evaluated at the concrete uniform snapshot of
ten bins holding 7. -/
theorem C1_uniform_features_witness :
    getAverageAmplitude (List.replicate 10 7) = some ((7 : ℚ) / 255) ∧
    getBassAmplitude (List.replicate 10 7) = some ((7 : ℚ) / 255) ∧
    getMidAmplitude (List.replicate 10 7) = some ((7 : ℚ) / 255) ∧
    getTrebleAmplitude (List.replicate 10 7) = some ((7 : ℚ) / 255) :=
  C1_uniform_features 10 7 (by decide) (by decide) (by decide)

/-- C4 counterexample: on a snapshot of five bins (0 < N < 10, values in
[0,255]) getBassAmplitude divides the zero sum of an empty bass range by the
zero bin count, producing NaN (embedded as none), not a real number in [0,1];
getMidAmplitude does the same for a single-bin snapshot.  This refutes the
claim that all four accessors return a number in [0,1] for every N >= 0. -/
theorem C4_small_snapshot_counterexample :
    getBassAmplitude (List.replicate 5 128) = none ∧
    getMidAmplitude (List.replicate 1 128) = none := by
  constructor <;> simp [getBassAmplitude, getMidAmplitude, JQ.div, qsum]

/-- C4 as amended: on a snapshot with values in [0,255],
getAverageAmplitude and getTrebleAmplitude always return a rational in
[0,1]; getBassAmplitude does whenever N = 0 or N >= 10 (otherwise its bass
range floor(0.1N) is empty and the mean divides by zero, giving NaN); and
getMidAmplitude does whenever N = 0 or N >= 2 (otherwise its band is empty). -/
theorem C4_amplitudes_in_unit_interval (data : List ℕ) (hb : ∀ v ∈ data, v ≤ 255) :
    (∃ q : ℚ, getAverageAmplitude data = some q ∧ 0 ≤ q ∧ q ≤ 1) ∧
    (∃ q : ℚ, getTrebleAmplitude data = some q ∧ 0 ≤ q ∧ q ≤ 1) ∧
    (data.length = 0 ∨ 10 ≤ data.length →
      ∃ q : ℚ, getBassAmplitude data = some q ∧ 0 ≤ q ∧ q ≤ 1) ∧
    (data.length = 0 ∨ 2 ≤ data.length →
      ∃ q : ℚ, getMidAmplitude data = some q ∧ 0 ≤ q ∧ q ≤ 1) := by
  by_cases h0 : data.length = 0
  · refine ⟨⟨0, ?_, le_refl 0, by norm_num⟩, ⟨0, ?_, le_refl 0, by norm_num⟩,
      fun _ => ⟨0, ?_, le_refl 0, by norm_num⟩, fun _ => ⟨0, ?_, le_refl 0, by norm_num⟩⟩ <;>
      simp [getAverageAmplitude, getTrebleAmplitude, getBassAmplitude, getMidAmplitude, h0]
  · have hlen : 1 ≤ data.length := by omega
    refine ⟨?_, ?_, ?_, ?_⟩
    · have hq : ((data.length : ℕ) : ℚ) ≠ 0 := by exact_mod_cast h0
      have hbnd := div_div_255_bounds (qsum data) data.length
        (by exact_mod_cast hlen) (qsum_nonneg data)
        (by simpa using qsum_le_of_bounded data hb)
      exact ⟨_, by rw [getAverageAmplitude, if_neg h0, jq_div_some _ _ hq,
        jq_div_some _ _ (by norm_num)], hbnd.1, hbnd.2⟩
    · have hlt : data.length / 2 < data.length := Nat.div_lt_self (by omega) (by norm_num)
      have hcast : (data.length : ℚ) - ((data.length / 2 : ℕ) : ℚ) =
          ((data.length - data.length / 2 : ℕ) : ℚ) := by
        rw [Nat.cast_sub (le_of_lt hlt)]
      have hq : ((data.length - data.length / 2 : ℕ) : ℚ) ≠ 0 := by
        exact_mod_cast (by omega : ¬ (data.length - data.length / 2 = 0))
      have hlensub : (data.drop (data.length / 2)).length = data.length - data.length / 2 :=
        List.length_drop _ _
      have hbnd := div_div_255_bounds (qsum (data.drop (data.length / 2)))
        ((data.length - data.length / 2 : ℕ))
        (by exact_mod_cast (by omega : 0 < data.length - data.length / 2))
        (qsum_nonneg _)
        (by
          have := qsum_le_of_bounded (data.drop (data.length / 2))
            (fun v hv => hb v (List.mem_of_mem_drop hv))
          rw [hlensub] at this
          exact_mod_cast this)
      exact ⟨_, by rw [getTrebleAmplitude, if_neg h0, hcast, jq_div_some _ _ hq,
        jq_div_some _ _ (by norm_num)], hbnd.1, hbnd.2⟩
    · intro h
      have h10 : 10 ≤ data.length := by omega
      have hq : ((data.length / 10 : ℕ) : ℚ) ≠ 0 := by
        exact_mod_cast (by omega : ¬ (data.length / 10 = 0))
      have htl : (data.take (data.length / 10)).length = data.length / 10 := by
        rw [List.length_take]
        omega
      have hbnd := div_div_255_bounds (qsum (data.take (data.length / 10)))
        ((data.length / 10 : ℕ))
        (by exact_mod_cast (by omega : 0 < data.length / 10))
        (qsum_nonneg _)
        (by
          have := qsum_le_of_bounded (data.take (data.length / 10))
            (fun v hv => hb v (List.mem_of_mem_take hv))
          rw [htl] at this
          exact_mod_cast this)
      exact ⟨_, by rw [getBassAmplitude, if_neg h0, jq_div_some _ _ hq,
        jq_div_some _ _ (by norm_num)], hbnd.1, hbnd.2⟩
    · intro h
      have h2 : 2 ≤ data.length := by omega
      have hlt : data.length / 10 < data.length / 2 := by omega
      have hcast : ((data.length / 2 : ℕ) : ℚ) - ((data.length / 10 : ℕ) : ℚ) =
          ((data.length / 2 - data.length / 10 : ℕ) : ℚ) := by
        rw [Nat.cast_sub (le_of_lt hlt)]
      have hq : ((data.length / 2 - data.length / 10 : ℕ) : ℚ) ≠ 0 := by
        exact_mod_cast (by omega : ¬ (data.length / 2 - data.length / 10 = 0))
      have hsl : ((data.drop (data.length / 10)).take
          (data.length / 2 - data.length / 10)).length =
          data.length / 2 - data.length / 10 := by
        rw [List.length_take, List.length_drop]
        have : data.length / 2 ≤ data.length := Nat.div_le_self _ _
        omega
      have hbnd := div_div_255_bounds
        (qsum ((data.drop (data.length / 10)).take (data.length / 2 - data.length / 10)))
        ((data.length / 2 - data.length / 10 : ℕ))
        (by exact_mod_cast (by omega : 0 < data.length / 2 - data.length / 10))
        (qsum_nonneg _)
        (by
          have := qsum_le_of_bounded
            ((data.drop (data.length / 10)).take (data.length / 2 - data.length / 10))
            (fun v hv => hb v (List.mem_of_mem_drop (List.mem_of_mem_take hv)))
          rw [hsl] at this
          exact_mod_cast this)
      exact ⟨_, by rw [getMidAmplitude, if_neg h0, hcast, jq_div_some _ _ hq,
        jq_div_some _ _ (by norm_num)], hbnd.1, hbnd.2⟩

/-- C4 witness: the amended theorem evaluated on a concrete ten-bin snapshot. -/
theorem C4_amplitudes_in_unit_interval_witness :
    ((∃ q : ℚ, getAverageAmplitude (List.replicate 10 255) = some q ∧ 0 ≤ q ∧ q ≤ 1) ∧
    (∃ q : ℚ, getTrebleAmplitude (List.replicate 10 255) = some q ∧ 0 ≤ q ∧ q ≤ 1) ∧
    ((List.replicate 10 255).length = 0 ∨ 10 ≤ (List.replicate 10 255).length →
      ∃ q : ℚ, getBassAmplitude (List.replicate 10 255) = some q ∧ 0 ≤ q ∧ q ≤ 1) ∧
    ((List.replicate 10 255).length = 0 ∨ 2 ≤ (List.replicate 10 255).length →
      ∃ q : ℚ, getMidAmplitude (List.replicate 10 255) = some q ∧ 0 ≤ q ∧ q ≤ 1)) :=
  C4_amplitudes_in_unit_interval (List.replicate 10 255) (by decide)

/-! Spectrum analyzer (src/visualizers/Spectrum.ts).  The render mutates only
the peaks array; bars are repainted from scratch each frame.  The embedding
keeps the peaks as the effect state and returns the updated peaks. -/

/-- Index sampled for bar i of 64: floor((i/64)^1.5 * (N * 0.5)).  Since
(i/64)^1.5 * N/2 = sqrt(i^3 * N^2) / 1024, the floor equals
Nat.sqrt (i^3 * N^2) / 1024 exactly. -/
def spectrumFreqIndex (i N : ℕ) : ℕ := Nat.sqrt (i ^ 3 * N ^ 2) / 1024

/-- Bar value: frequencyData[freqIndex] / 255. -/
def spectrumValue (freq : List ℕ) (i : ℕ) : JQ :=
  JQ.div (JQ.jsIndex freq (spectrumFreqIndex i freq.length)) (some 255)

/-- Peaks array an instant before the per-bar loop: reallocated to 64 zeros
whenever its length differs from the bar count. -/
def spectrumPeaksInit (peaks : List JQ) : List JQ :=
  if peaks.length = 64 then peaks else List.replicate 64 (some 0)

/-- Peak update for one bar: if value > peak then peak = value else
peak *= 0.98 (Spectrum.render, peakDecay = 0.98). -/
def spectrumPeakUpdate (p value : JQ) : JQ :=
  if JQ.lt p value then value else p * some (49 / 50 : ℚ)

/-- Effect of one Spectrum.render call on the stored peaks: early return on
an empty snapshot, otherwise the per-bar loop updates all 64 peaks. -/
def spectrumStep (freq : List ℕ) (peaks : List JQ) : List JQ :=
  if freq.length = 0 then peaks else
    (List.range 64).map (fun i =>
      spectrumPeakUpdate ((spectrumPeaksInit peaks).getD i (some 0)) (spectrumValue freq i))

theorem spectrumStep_getD (freq : List ℕ) (peaks : List JQ) (i : ℕ)
    (hne : ¬ (freq.length = 0)) (hi : i < 64) :
    (spectrumStep freq peaks).getD i (some 0) =
      spectrumPeakUpdate ((spectrumPeaksInit peaks).getD i (some 0)) (spectrumValue freq i) := by
  rw [spectrumStep, if_neg hne, List.getD_eq_getElem?_getD, List.getElem?_map,
    List.getElem?_range hi]
  rfl

/-- C3 counterexample: starting from fresh peaks, a render with the one-bin
snapshot [255] sets the bar-0 peak to 1; a second render with [252] stores
0.98 (the decayed old peak), but the claimed formula max(peak*0.98, value)
would give 252/255 = 0.988..., because the current value 252/255 lies
strictly between peak*0.98 and peak.  The stored peak therefore differs from
max(old_peak*0.98, value_i). -/
theorem C3_peak_update_counterexample :
    (spectrumStep [255] []).getD 0 (some 0) = some 1 ∧
    (spectrumStep [252] (spectrumStep [255] [])).getD 0 (some 0) = some ((49 : ℚ) / 50) ∧
    spectrumValue [252] 0 = some ((252 : ℚ) / 255) ∧
    ((49 : ℚ) / 50) ≠ max ((1 : ℚ) * (49 / 50)) ((252 : ℚ) / 255) := by
  have hv255 : spectrumValue [255] 0 = some 1 := by
    simp [spectrumValue, spectrumFreqIndex, JQ.jsIndex, JQ.div]
  have hv252 : spectrumValue [252] 0 = some ((252 : ℚ) / 255) := by
    simp [spectrumValue, spectrumFreqIndex, JQ.jsIndex, JQ.div]
  have h1 : (spectrumStep [255] []).getD 0 (some 0) = some 1 := by
    rw [spectrumStep_getD [255] [] 0 (by simp) (by norm_num), hv255]
    simp [spectrumPeaksInit, spectrumPeakUpdate, JQ.lt]
  have hlen : (spectrumStep [255] []).length = 64 := by
    rw [spectrumStep, if_neg (by simp)]
    simp
  have h2 : (spectrumStep [252] (spectrumStep [255] [])).getD 0 (some 0) =
      some ((49 : ℚ) / 50) := by
    rw [spectrumStep_getD _ _ 0 (by simp) (by norm_num), hv252]
    rw [spectrumPeaksInit, if_pos hlen, h1]
    rw [spectrumPeakUpdate]
    have : JQ.lt (some 1) (some ((252 : ℚ) / 255)) = false := by
      simp [JQ.lt]
      norm_num
    rw [this]
    show some (1 * (49 / 50 : ℚ)) = some ((49 : ℚ) / 50)
    norm_num
  exact ⟨h1, h2, hv252, by
    rw [max_eq_right (by norm_num : (1 : ℚ) * (49 / 50) ≤ 252 / 255)]
    norm_num⟩

/-- C3 as amended: for every render with a nonempty snapshot and every bar
i < 64 with finite nonnegative old peak p and finite current value v, the
stored peak after the call is max(p*0.98, v) whenever v ≤ p*0.98 or v > p
(which covers all audio-reachable cases except a narrow window), and it is
the decayed peak p*0.98 — not the claimed max — when p*0.98 < v ≤ p. -/
theorem C3_peak_update_characterization (freq : List ℕ) (peaks : List JQ) (i : ℕ)
    (hne : ¬ (freq.length = 0)) (hi : i < 64) (p v : ℚ) (hp0 : 0 ≤ p)
    (hpeak : (spectrumPeaksInit peaks).getD i (some 0) = some p)
    (hval : spectrumValue freq i = some v) :
    ((v ≤ p * (49 / 50) ∨ p < v) →
      (spectrumStep freq peaks).getD i (some 0) = some (max (p * (49 / 50)) v)) ∧
    (p * (49 / 50) < v → v ≤ p →
      (spectrumStep freq peaks).getD i (some 0) = some (p * (49 / 50))) := by
  rw [spectrumStep_getD freq peaks i hne hi, hpeak, hval, spectrumPeakUpdate]
  constructor
  · intro hcase
    rcases hcase with hle | hlt
    · have hnlt : ¬ (p < v) := by nlinarith
      rw [JQ.lt, decide_eq_false hnlt]
      show some (p * (49 / 50 : ℚ)) = some (max (p * (49 / 50)) v)
      rw [max_eq_left hle]
    · rw [JQ.lt, decide_eq_true hlt]
      show some v = some (max (p * (49 / 50 : ℚ)) v)
      rw [max_eq_right (by nlinarith : p * (49 / 50 : ℚ) ≤ v)]
  · intro hwin hle
    have hnlt : ¬ (p < v) := not_lt.mpr hle
    rw [JQ.lt, decide_eq_false hnlt]
    rfl

/-- C3 witness: the characterization applied at bar 0 of the one-bin
snapshot [255] from fresh peaks (p = 0, v = 1, case v > p). -/
theorem C3_peak_update_characterization_witness :
    ((1 : ℚ) ≤ (0 : ℚ) * (49 / 50) ∨ (0 : ℚ) < 1 →
      (spectrumStep [255] []).getD 0 (some 0) = some (max ((0 : ℚ) * (49 / 50)) 1)) ∧
    ((0 : ℚ) * (49 / 50) < 1 → (1 : ℚ) ≤ 0 →
      (spectrumStep [255] []).getD 0 (some 0) = some ((0 : ℚ) * (49 / 50))) :=
  C3_peak_update_characterization [255] [] 0 (by simp) (by norm_num) 0 1 le_rfl
    (by simp [spectrumPeaksInit])
    (by simp [spectrumValue, spectrumFreqIndex, JQ.jsIndex, JQ.div])

/-! Particle system (src/visualizers/Terrain.ts, class Particles).
Math.random() is an injectable stream rng with an explicit cursor; Math.cos
and Math.sin are oracle parameters (their double-precision values are not
exactly representable); Math.PI is the exact rational value of the double
constant. -/

/-- Math.PI as the exact rational value of the IEEE double constant. -/
def jsPI : ℚ := 884279719003555 / 281474976710656

/-- JavaScript remainder a % b: a - b * trunc(a / b); NaN on a zero divisor
or non-finite operand. -/
def jsRem (a b : JQ) : JQ := match a, b with
  | some x, some y => if y = 0 then none else some (x - y * (((x / y).num / (x / y).den : ℤ) : ℚ))
  | _, _ => none

/-- Particle record (interface Particle in the source). -/
structure Particle where
  x : JQ
  y : JQ
  vx : JQ
  vy : JQ
  size : JQ
  hue : JQ
  life : JQ
  maxLife : JQ
deriving DecidableEq, Repr

/-- Mutable state of the Particles effect: the pool, the previous frame's
bass (for the rising-edge beat detector) and the Math.random() cursor. -/
structure ParticlesState where
  particles : List Particle
  lastBass : JQ
  rngIdx : ℕ
deriving DecidableEq, Repr

/-- Particles.spawnParticle at center (x, y); consumes seven random draws in
source order: angle, speed, x jitter, y jitter, size, hue, life. -/
def spawnParticle (rng : ℕ → ℚ) (cosF sinF : ℚ → ℚ) (k : ℕ) (x y : ℚ)
    (time : ℚ) (burst : Bool) : Particle :=
  let angle : ℚ := rng k * jsPI * 2
  let speed : ℚ := if burst then 3 + rng (k + 1) * 8 else 1 + rng (k + 1) * 3
  { x := some (x + (rng (k + 2) - 1/2) * 20)
    y := some (y + (rng (k + 3) - 1/2) * 20)
    vx := some (cosF angle * speed)
    vy := some (sinF angle * speed)
    size := some (2 + rng (k + 4) * 4)
    hue := jsRem (some (time * 40 + rng (k + 5) * 60)) (some 360)
    life := some (60 + rng (k + 6) * 60)
    maxLife := some 120 }

/-- Per-particle update of one render: position moves by velocity scaled by
(1 + bass), turbulence adds two random draws scaled by treble, gravity adds
0.05 * (1 - mid) to vy, life decrements. -/
def updateParticle (bass mid treble : JQ) (rng : ℕ → ℚ) (k : ℕ) (p : Particle) :
    Particle :=
  { p with
    x := p.x + p.vx * (some 1 + bass)
    y := p.y + p.vy * (some 1 + bass)
    vx := p.vx + (some (rng k) - some (1/2)) * treble * some (1/2)
    vy := p.vy + (some (rng (k + 1)) - some (1/2)) * treble * some (1/2)
            + some (1/20) * (some 1 - mid)
    life := p.life - some 1 }

/-- Death test after the update: life <= 0 or position outside the surface
(all comparisons false on NaN, as in JavaScript). -/
def particleDead (width height : ℚ) (p : Particle) : Bool :=
  JQ.le p.life (some 0) || JQ.lt p.x (some 0) || JQ.lt (some width) p.x ||
    JQ.lt p.y (some 0) || JQ.lt (some height) p.y

/-- Update-and-cull loop: the source iterates from the last index down to 0,
updating in place and splicing out dead particles, so the last element is
processed first; each particle consumes two random draws (turbulence) whether
or not it dies. -/
def updateLoop (width height : ℚ) (bass mid treble : JQ) (rng : ℕ → ℚ) :
    List Particle → ℕ → List Particle × ℕ
  | [], k => ([], k)
  | p :: rest, k =>
      let r := updateLoop width height bass mid treble rng rest k
      let p2 := updateParticle bass mid treble rng r.2 p
      (if particleDead width height p2 then r.1 else p2 :: r.1, r.2 + 2)

/-- Burst loop: 50 unconditional spawnParticle calls on a bass hit; no pool
cap is checked here. -/
def burstLoop (rng : ℕ → ℚ) (cosF sinF : ℚ → ℚ) (cx cy time : ℚ) :
    ℕ → List Particle → ℕ → List Particle × ℕ
  | 0, ps, k => (ps, k)
  | n + 1, ps, k =>
      burstLoop rng cosF sinF cx cy time n
        (ps ++ [spawnParticle rng cosF sinF k cx cy time true]) (k + 7)

/-- Regular spawn loop: up to spawnRate spawns, stopping as soon as the pool
reaches maxParticles = 500. -/
def regularLoop (rng : ℕ → ℚ) (cosF sinF : ℚ → ℚ) (cx cy time : ℚ) :
    ℕ → List Particle → ℕ → List Particle × ℕ
  | 0, ps, k => (ps, k)
  | n + 1, ps, k =>
      if ps.length < 500 then
        regularLoop rng cosF sinF cx cy time n
          (ps ++ [spawnParticle rng cosF sinF k cx cy time false]) (k + 7)
      else (ps, k)

/-- Effect of one Particles.render call on the effect state.  The beat
detector fires when bass > 0.5 and bass - lastBass > 0.1; a hit spawns a
50-particle burst before the cap-checked regular spawning; then every
particle is updated and dead ones are removed. -/
def particlesStep (rng : ℕ → ℚ) (cosF sinF : ℚ → ℚ) (freq : List ℕ)
    (width height time : ℚ) (s : ParticlesState) : ParticlesState :=
  let bass := getBassAmplitude freq
  let mid := getMidAmplitude freq
  let treble := getTrebleAmplitude freq
  let average := getAverageAmplitude freq
  let cx := width / 2
  let cy := height / 2
  let spawnRate := JQ.floor (average * some 20 + bass * some 30)
  let bassHit := JQ.lt (some (1/2)) bass && JQ.lt (some (1/10)) (bass - s.lastBass)
  let r1 := if bassHit then burstLoop rng cosF sinF cx cy time 50 s.particles s.rngIdx
            else (s.particles, s.rngIdx)
  let r2 := regularLoop rng cosF sinF cx cy time (JQ.toCount spawnRate) r1.1 r1.2
  let r3 := updateLoop width height bass mid treble rng r2.1 r2.2
  { particles := r3.1, lastBass := bass, rngIdx := r3.2 }

/-! Pool-size lemmas. -/

theorem updateLoop_length_le (width height : ℚ) (bass mid treble : JQ)
    (rng : ℕ → ℚ) (ps : List Particle) (k : ℕ) :
    (updateLoop width height bass mid treble rng ps k).1.length ≤ ps.length := by
  induction ps generalizing k with
  | nil => simp [updateLoop]
  | cons p rest ih =>
      simp only [updateLoop, List.length_cons]
      split
      · exact le_trans (ih k) (Nat.le_succ _)
      · simpa using Nat.succ_le_succ (ih k)

theorem burstLoop_length (rng : ℕ → ℚ) (cosF sinF : ℚ → ℚ) (cx cy time : ℚ)
    (n : ℕ) (ps : List Particle) (k : ℕ) :
    (burstLoop rng cosF sinF cx cy time n ps k).1.length = ps.length + n := by
  induction n generalizing ps k with
  | zero => simp [burstLoop]
  | succ m ih =>
      simp only [burstLoop, ih]
      simp
      omega

theorem regularLoop_length_le (rng : ℕ → ℚ) (cosF sinF : ℚ → ℚ) (cx cy time : ℚ)
    (n : ℕ) (ps : List Particle) (k : ℕ) :
    (regularLoop rng cosF sinF cx cy time n ps k).1.length ≤ max ps.length 500 := by
  induction n generalizing ps k with
  | zero => simp [regularLoop]
  | succ m ih =>
      simp only [regularLoop]
      split
      · refine le_trans (ih _ _) ?_
        simp only [List.length_append, List.length_singleton]
        omega
      · exact Nat.le_max_left _ _

/-- C2 as amended: one Particles.render call never grows the pool beyond
max(size before the call + 50, 500): the regular spawn loop respects the
500 cap, but the 50-particle bass burst is not cap-checked, so a call that
starts at or near the cap can leave up to 550 particles (and repeated
rising-edge hits can push it further).  This holds for every random stream,
every cosine/sine oracle and every input. -/
theorem C2_pool_growth_bound (rng : ℕ → ℚ) (cosF sinF : ℚ → ℚ) (freq : List ℕ)
    (width height time : ℚ) (s : ParticlesState) :
    (particlesStep rng cosF sinF freq width height time s).particles.length ≤
      max (s.particles.length + 50) 500 := by
  rw [particlesStep]
  refine le_trans (updateLoop_length_le _ _ _ _ _ _ _ _) ?_
  refine le_trans (regularLoop_length_le _ _ _ _ _ _ _ _ _) ?_
  split
  · rw [burstLoop_length]
  · simp only [Prod.fst]
    omega

/-! Deterministic instantiation used for the concrete Particles run: the
random stream is constantly 0 and the cosine/sine oracles are constantly 0
(legitimate instances of the injectable randomness and of the bounded trig
oracles), the surface is 1000 x 1000, time is 0, and the audio alternates
between a uniform loud snapshot and a uniform quiet one. -/

theorem jq_some_add (a b : ℚ) : (some a + some b : JQ) = some (a + b) := rfl

theorem jq_some_sub (a b : ℚ) : (some a - some b : JQ) = some (a - b) := rfl

theorem jq_some_mul (a b : ℚ) : (some a * some b : JQ) = some (a * b) := rfl

theorem jq_lt_some (a b : ℚ) : JQ.lt (some a) (some b) = decide (a < b) := rfl

theorem jq_le_some (a b : ℚ) : JQ.le (some a) (some b) = decide (a ≤ b) := rfl

def zeroRng : ℕ → ℚ := fun _ => 0

def zeroTrig : ℚ → ℚ := fun _ => 0

def loudSnap : List ℕ := List.replicate 10 255

def quietSnap : List ℕ := List.replicate 10 0

theorem loud_feats :
    getAverageAmplitude loudSnap = some 1 ∧ getBassAmplitude loudSnap = some 1 ∧
    getMidAmplitude loudSnap = some 1 ∧ getTrebleAmplitude loudSnap = some 1 := by
  have h := uniform_features_eq 10 255 (by norm_num) (by norm_num)
  have h255 : ((255 : ℕ) : ℚ) / 255 = 1 := by norm_num
  rw [h255] at h
  exact h

theorem quiet_feats :
    getAverageAmplitude quietSnap = some 0 ∧ getBassAmplitude quietSnap = some 0 ∧
    getMidAmplitude quietSnap = some 0 ∧ getTrebleAmplitude quietSnap = some 0 := by
  have h := uniform_features_eq 10 0 (by norm_num) (by norm_num)
  have h0 : ((0 : ℕ) : ℚ) / 255 = 0 := by norm_num
  rw [h0] at h
  exact h

/-- Particle produced by every spawnParticle call under the zero stream and
zero trig oracles at center (500, 500), time 0. -/
def p0 : Particle :=
  { x := some 490, y := some 490, vx := some 0, vy := some 0,
    size := some 2, hue := some 0, life := some 60, maxLife := some 120 }

theorem spawn_zero (k : ℕ) (burst : Bool) :
    spawnParticle zeroRng zeroTrig zeroTrig k 500 500 0 burst = p0 := by
  rw [spawnParticle, p0]
  simp only [zeroRng, zeroTrig, jsRem]
  norm_num

theorem burstLoop_zero (n : ℕ) (ps : List Particle) (k : ℕ) :
    burstLoop zeroRng zeroTrig zeroTrig 500 500 0 n ps k =
      (ps ++ List.replicate n p0, k + 7 * n) := by
  induction n generalizing ps k with
  | zero => simp [burstLoop]
  | succ m ih =>
      rw [burstLoop, spawn_zero, ih]
      refine Prod.ext ?_ ?_
      · simp only [List.append_assoc, List.singleton_append]
        rw [← List.replicate_succ]
      · simp only
        omega

theorem regularLoop_zero (n : ℕ) (ps : List Particle) (k : ℕ) :
    regularLoop zeroRng zeroTrig zeroTrig 500 500 0 n ps k =
      (ps ++ List.replicate (min n (500 - ps.length)) p0,
       k + 7 * min n (500 - ps.length)) := by
  induction n generalizing ps k with
  | zero => simp [regularLoop]
  | succ m ih =>
      rw [regularLoop]
      by_cases hlt : ps.length < 500
      · rw [if_pos hlt, spawn_zero, ih]
        refine Prod.ext ?_ ?_
        · simp only [List.append_assoc, List.singleton_append, List.length_append,
            List.length_singleton]
          congr 1
          have : min m (500 - (ps.length + 1)) + 1 = min (m + 1) (500 - ps.length) := by
            omega
          rw [← this, List.replicate_succ]
        · simp only [List.length_append, List.length_singleton]
          omega
      · rw [if_neg hlt]
        have h0 : min (m + 1) (500 - ps.length) = 0 := by omega
        simp [h0]

theorem updateParticle_zero_cursor (b m t : JQ) (k : ℕ) (p : Particle) :
    updateParticle b m t zeroRng k p = updateParticle b m t zeroRng 0 p := rfl

theorem updateLoop_zero_nodeath (W H : ℚ) (b m t : JQ) (ps : List Particle) (k : ℕ)
    (h : ∀ p ∈ ps, particleDead W H (updateParticle b m t zeroRng 0 p) = false) :
    updateLoop W H b m t zeroRng ps k =
      (ps.map (updateParticle b m t zeroRng 0), k + 2 * ps.length) := by
  induction ps generalizing k with
  | nil => simp [updateLoop]
  | cons p rest ih =>
      have hrest : ∀ q ∈ rest, particleDead W H (updateParticle b m t zeroRng 0 q) = false :=
        fun q hq => h q (List.mem_cons_of_mem p hq)
      rw [updateLoop, ih k hrest]
      simp only [updateParticle_zero_cursor]
      rw [h p (List.mem_cons_self p rest)]
      refine Prod.ext ?_ ?_
      · simp
      · simp only [List.length_cons]
        omega

/-- Safety envelope for a particle of the deterministic run that has
survived j render updates: all numeric fields finite, position within 25*j
of the spawn point (490, 490), velocity within j, life within [60 - j, 60].
Inside the 1000 x 1000 surface and with j <= 11 this guarantees survival. -/
def SafeAt (j : ℕ) (p : Particle) : Prop :=
  ∃ x y vx vy lf : ℚ,
    p.x = some x ∧ p.y = some y ∧ p.vx = some vx ∧ p.vy = some vy ∧
    p.life = some lf ∧
    490 - 25 * j ≤ x ∧ x ≤ 490 + 25 * j ∧ 490 - 25 * j ≤ y ∧ y ≤ 490 + 25 * j ∧
    -(j : ℚ) ≤ vx ∧ vx ≤ j ∧ -(j : ℚ) ≤ vy ∧ vy ≤ j ∧
    (60 - j : ℚ) ≤ lf ∧ lf ≤ 60

theorem safeAt_p0 : SafeAt 0 p0 := by
  refine ⟨490, 490, 0, 0, 60, rfl, rfl, rfl, rfl, rfl, ?_, ?_, ?_, ?_, ?_, ?_, ?_, ?_, ?_, ?_⟩ <;>
    norm_num

theorem mul_band_bound (c vmax v : ℚ) (h0 : 0 ≤ c) (h1 : c ≤ 2)
    (hv0 : -vmax ≤ v) (hv1 : v ≤ vmax) (hm : 0 ≤ vmax) :
    -(2 * vmax) ≤ v * c ∧ v * c ≤ 2 * vmax := by
  constructor <;> nlinarith

theorem env_bounds (j : ℕ) (hj : j < 11) (b m t x y vx vy lf : ℚ)
    (hb0 : 0 ≤ b) (hb1 : b ≤ 1) (hm0 : 0 ≤ m) (hm1 : m ≤ 1)
    (ht0 : 0 ≤ t) (ht1 : t ≤ 1)
    (hx0 : 490 - 25 * j ≤ x) (hx1 : x ≤ 490 + 25 * j)
    (hy0 : 490 - 25 * j ≤ y) (hy1 : y ≤ 490 + 25 * j)
    (hvx0 : -(j : ℚ) ≤ vx) (hvx1 : vx ≤ j)
    (hvy0 : -(j : ℚ) ≤ vy) (hvy1 : vy ≤ j)
    (hlf0 : (60 - j : ℚ) ≤ lf) (hlf1 : lf ≤ 60) :
    490 - 25 * ((j + 1 : ℕ) : ℚ) ≤ x + vx * (1 + b) ∧
    x + vx * (1 + b) ≤ 490 + 25 * ((j + 1 : ℕ) : ℚ) ∧
    490 - 25 * ((j + 1 : ℕ) : ℚ) ≤ y + vy * (1 + b) ∧
    y + vy * (1 + b) ≤ 490 + 25 * ((j + 1 : ℕ) : ℚ) ∧
    -((j + 1 : ℕ) : ℚ) ≤ vx + (0 - 1/2) * t * (1/2) ∧
    vx + (0 - 1/2) * t * (1/2) ≤ ((j + 1 : ℕ) : ℚ) ∧
    -((j + 1 : ℕ) : ℚ) ≤ vy + (0 - 1/2) * t * (1/2) + 1/20 * (1 - m) ∧
    vy + (0 - 1/2) * t * (1/2) + 1/20 * (1 - m) ≤ ((j + 1 : ℕ) : ℚ) ∧
    (60 : ℚ) - ((j + 1 : ℕ) : ℚ) ≤ lf - 1 ∧ lf - 1 ≤ 60 ∧
    ¬ (lf - 1 ≤ 0) ∧ ¬ (x + vx * (1 + b) < 0) ∧ ¬ ((1000 : ℚ) < x + vx * (1 + b)) ∧
    ¬ (y + vy * (1 + b) < 0) ∧ ¬ ((1000 : ℚ) < y + vy * (1 + b)) := by
  have hjq : (0 : ℚ) ≤ (j : ℚ) := by positivity
  have hj10 : (j : ℚ) ≤ 10 := by
    have h : j ≤ 10 := by omega
    exact_mod_cast h
  obtain ⟨hdx0, hdx1⟩ := mul_band_bound (1 + b) (j : ℚ) vx
    (by linarith) (by linarith) hvx0 hvx1 hjq
  obtain ⟨hdy0, hdy1⟩ := mul_band_bound (1 + b) (j : ℚ) vy
    (by linarith) (by linarith) hvy0 hvy1 hjq
  have hT0 : (0 - 1/2 : ℚ) * t * (1/2) ≤ 0 := by linarith
  have hT1 : -(1/4 : ℚ) ≤ (0 - 1/2) * t * (1/2) := by linarith
  have hG0 : (0 : ℚ) ≤ 1/20 * (1 - m) := by linarith
  have hG1 : (1/20 : ℚ) * (1 - m) ≤ 1/20 := by linarith
  have hc : ((j + 1 : ℕ) : ℚ) = (j : ℚ) + 1 := by push_cast; ring
  rw [hc]
  refine ⟨by linarith, by linarith, by linarith, by linarith, by linarith,
    by linarith, by linarith, by linarith, by linarith, by linarith,
    by push_neg; linarith, by push_neg; linarith, by push_neg; linarith,
    by push_neg; linarith, by push_neg; linarith⟩

theorem safe_step (j : ℕ) (hj : j < 11) (b m t : ℚ)
    (hb0 : 0 ≤ b) (hb1 : b ≤ 1) (hm0 : 0 ≤ m) (hm1 : m ≤ 1)
    (ht0 : 0 ≤ t) (ht1 : t ≤ 1) (p : Particle) (hp : SafeAt j p) :
    SafeAt (j + 1) (updateParticle (some b) (some m) (some t) zeroRng 0 p) ∧
    particleDead 1000 1000 (updateParticle (some b) (some m) (some t) zeroRng 0 p) = false := by
  obtain ⟨x, y, vx, vy, lf, hx, hy, hvx, hvy, hlf,
    hx0, hx1, hy0, hy1, hvx0, hvx1, hvy0, hvy1, hlf0, hlf1⟩ := hp
  obtain ⟨e1, e2, e3, e4, e5, e6, e7, e8, e9, e10, d1, d2, d3, d4, d5⟩ :=
    env_bounds j hj b m t x y vx vy lf hb0 hb1 hm0 hm1 ht0 ht1
      hx0 hx1 hy0 hy1 hvx0 hvx1 hvy0 hvy1 hlf0 hlf1
  have hxfield : (updateParticle (some b) (some m) (some t) zeroRng 0 p).x =
      some (x + vx * (1 + b)) := by
    simp only [updateParticle, hx, hvx, zeroRng]
    rfl
  have hyfield : (updateParticle (some b) (some m) (some t) zeroRng 0 p).y =
      some (y + vy * (1 + b)) := by
    simp only [updateParticle, hy, hvy, zeroRng]
    rfl
  have hvxfield : (updateParticle (some b) (some m) (some t) zeroRng 0 p).vx =
      some (vx + (0 - 1/2) * t * (1/2)) := by
    simp only [updateParticle, hvx, zeroRng]
    rfl
  have hvyfield : (updateParticle (some b) (some m) (some t) zeroRng 0 p).vy =
      some (vy + (0 - 1/2) * t * (1/2) + 1/20 * (1 - m)) := by
    simp only [updateParticle, hvy, zeroRng]
    rfl
  have hlffield : (updateParticle (some b) (some m) (some t) zeroRng 0 p).life =
      some (lf - 1) := by
    simp only [updateParticle, hlf]
    rfl
  constructor
  · exact ⟨x + vx * (1 + b), y + vy * (1 + b), vx + (0 - 1/2) * t * (1/2),
      vy + (0 - 1/2) * t * (1/2) + 1/20 * (1 - m), lf - 1,
      hxfield, hyfield, hvxfield, hvyfield, hlffield,
      e1, e2, e3, e4, e5, e6, e7, e8, e9, e10⟩
  · rw [particleDead, hxfield, hyfield, hlffield]
    rw [jq_le_some, jq_lt_some, jq_lt_some, jq_lt_some, jq_lt_some]
    rw [decide_eq_false d1, decide_eq_false d2, decide_eq_false d3,
      decide_eq_false d4, decide_eq_false d5]
    rfl

/-- One render call of the deterministic Particles run: zero random stream,
zero trig oracles, 1000 x 1000 surface, time 0. -/
def c2Step (freq : List ℕ) (s : ParticlesState) : ParticlesState :=
  particlesStep zeroRng zeroTrig zeroTrig freq 1000 1000 0 s

/-- Invariant of the deterministic run after tm renders: every pooled
particle is inside the safety envelope for some age j <= tm. -/
def INVp (tm : ℕ) (s : ParticlesState) : Prop :=
  ∀ p ∈ s.particles, ∃ j ≤ tm, SafeAt j p

theorem lt_half_zero : JQ.lt (some (1/2 : ℚ)) (some 0) = false := by
  rw [jq_lt_some]
  exact decide_eq_false (by norm_num)

theorem lt_half_one : JQ.lt (some (1/2 : ℚ)) (some 1) = true := by
  rw [jq_lt_some]
  exact decide_eq_true (by norm_num)

theorem lt_tenth_one : JQ.lt (some (1/10 : ℚ)) (some 1) = true := by
  rw [jq_lt_some]
  exact decide_eq_true (by norm_num)

theorem spawnRate_quiet :
    JQ.toCount (JQ.floor (some (0 : ℚ) * some 20 + some (0 : ℚ) * some 30)) = 0 := by
  rw [jq_some_mul, jq_some_mul, jq_some_add]
  norm_num [JQ.floor, JQ.toCount]

theorem spawnRate_loud :
    JQ.toCount (JQ.floor (some (1 : ℚ) * some 20 + some (1 : ℚ) * some 30)) = 50 := by
  rw [jq_some_mul, jq_some_mul, jq_some_add]
  norm_num [JQ.floor, JQ.toCount]
  rfl

theorem updateLoop_filterMap (W H : ℚ) (b m t : JQ) (ps : List Particle) (k : ℕ) :
    updateLoop W H b m t zeroRng ps k =
      (ps.filterMap (fun p =>
        let p2 := updateParticle b m t zeroRng 0 p
        if particleDead W H p2 then none else some p2),
       k + 2 * ps.length) := by
  induction ps generalizing k with
  | nil => simp [updateLoop]
  | cons p rest ih =>
      rw [updateLoop, ih k]
      simp only [updateParticle_zero_cursor, List.filterMap_cons]
      by_cases hd : particleDead W H (updateParticle b m t zeroRng 0 p) = true
      · rw [if_pos hd]
        simp only [hd, if_pos, List.length_cons]
        refine Prod.ext rfl ?_
        simp only
        omega
      · rw [Bool.not_eq_true] at hd
        simp only [hd, Bool.false_eq_true, if_false, List.length_cons]
        refine Prod.ext rfl ?_
        simp only
        omega

theorem c2Step_quiet_eq (s : ParticlesState) :
    c2Step quietSnap s =
      { particles := (s.particles.filterMap (fun p =>
          let p2 := updateParticle (some 0) (some 0) (some 0) zeroRng 0 p
          if particleDead 1000 1000 p2 then none else some p2)),
        lastBass := some 0,
        rngIdx := s.rngIdx + 2 * s.particles.length } := by
  obtain ⟨hav, hba, hmi, htr⟩ := quiet_feats
  simp only [c2Step, particlesStep, hav, hba, hmi, htr, lt_half_zero, Bool.false_and,
    Bool.false_eq_true, if_false, spawnRate_quiet, regularLoop]
  rw [updateLoop_filterMap]

theorem c2Step_loud_eq (s : ParticlesState) (hlb : s.lastBass = some 0) :
    c2Step loudSnap s =
      { particles := (((s.particles ++ List.replicate 50 p0) ++
          List.replicate (min 50 (500 - (s.particles.length + 50))) p0).filterMap (fun p =>
          let p2 := updateParticle (some 1) (some 1) (some 1) zeroRng 0 p
          if particleDead 1000 1000 p2 then none else some p2)),
        lastBass := some 1,
        rngIdx := s.rngIdx + 7 * 50 + 7 * min 50 (500 - (s.particles.length + 50)) +
          2 * ((s.particles.length + 50) + min 50 (500 - (s.particles.length + 50))) } := by
  obtain ⟨hav, hba, hmi, htr⟩ := loud_feats
  have hsub : (some 1 - s.lastBass : JQ) = some 1 := by
    rw [hlb, jq_some_sub]
    norm_num
  have h12 : (1000 : ℚ) / 2 = 500 := by norm_num
  simp only [c2Step, particlesStep, hav, hba, hmi, htr, hsub, lt_half_one, lt_tenth_one,
    Bool.and_self, Bool.true_and, if_true, spawnRate_loud, h12, burstLoop_zero,
    regularLoop_zero, List.length_append, List.length_replicate]
  rw [updateLoop_filterMap]
  simp only [List.length_append, List.length_replicate, ParticlesState.mk.injEq]


theorem filterMap_eq_map_of_mem {α β : Type} (l : List α) (f : α → Option β) (g : α → β)
    (h : ∀ a ∈ l, f a = some (g a)) : l.filterMap f = l.map g := by
  induction l with
  | nil => simp
  | cons a t ih =>
      rw [List.filterMap_cons, h a (List.mem_cons_self a t), List.map_cons,
        ih (fun x hx => h x (List.mem_cons_of_mem a hx))]

theorem quiet_frame (tm : ℕ) (htm : tm < 11) (s : ParticlesState) (hinv : INVp tm s) :
    (c2Step quietSnap s).particles.length = s.particles.length ∧
    INVp (tm + 1) (c2Step quietSnap s) ∧
    (c2Step quietSnap s).lastBass = some 0 := by
  have hstep : ∀ p ∈ s.particles,
      SafeAt 0 p ∨ (∃ j ≤ tm, SafeAt j p) := fun p hp => Or.inr (hinv p hp)
  have hmap : s.particles.filterMap (fun p =>
      let p2 := updateParticle (some 0) (some 0) (some 0) zeroRng 0 p
      if particleDead 1000 1000 p2 then none else some p2) =
      s.particles.map (updateParticle (some 0) (some 0) (some 0) zeroRng 0) := by
    refine filterMap_eq_map_of_mem _ _ _ (fun p hp => ?_)
    obtain ⟨j, hj, hsafe⟩ := hinv p hp
    have hd := (safe_step j (by omega) 0 0 0 (by norm_num) (by norm_num) (by norm_num)
      (by norm_num) (by norm_num) (by norm_num) p hsafe).2
    simp only [hd, Bool.false_eq_true, if_false]
  rw [c2Step_quiet_eq]
  refine ⟨?_, ?_, rfl⟩
  · simp [hmap]
  · intro p2 hp2
    simp only [hmap] at hp2
    obtain ⟨p, hp, rfl⟩ := List.mem_map.mp hp2
    obtain ⟨j, hj, hsafe⟩ := hinv p hp
    exact ⟨j + 1, by omega,
      (safe_step j (by omega) 0 0 0 (by norm_num) (by norm_num) (by norm_num)
        (by norm_num) (by norm_num) (by norm_num) p hsafe).1⟩

theorem loud_frame (tm : ℕ) (htm : tm < 11) (s : ParticlesState)
    (hlb : s.lastBass = some 0) (hinv : INVp tm s) :
    (c2Step loudSnap s).particles.length =
      s.particles.length + 50 + min 50 (500 - (s.particles.length + 50)) ∧
    INVp (tm + 1) (c2Step loudSnap s) ∧
    (c2Step loudSnap s).lastBass = some 1 := by
  have hmem : ∀ p ∈ ((s.particles ++ List.replicate 50 p0) ++
      List.replicate (min 50 (500 - (s.particles.length + 50))) p0),
      ∃ j ≤ tm, SafeAt j p := by
    intro p hp
    rcases List.mem_append.mp hp with hp1 | hp2
    · rcases List.mem_append.mp hp1 with hp3 | hp4
      · exact hinv p hp3
      · exact ⟨0, by omega, (List.eq_of_mem_replicate hp4) ▸ safeAt_p0⟩
    · exact ⟨0, by omega, (List.eq_of_mem_replicate hp2) ▸ safeAt_p0⟩
  have hmap : ((s.particles ++ List.replicate 50 p0) ++
      List.replicate (min 50 (500 - (s.particles.length + 50))) p0).filterMap (fun p =>
      let p2 := updateParticle (some 1) (some 1) (some 1) zeroRng 0 p
      if particleDead 1000 1000 p2 then none else some p2) =
      ((s.particles ++ List.replicate 50 p0) ++
      List.replicate (min 50 (500 - (s.particles.length + 50))) p0).map
        (updateParticle (some 1) (some 1) (some 1) zeroRng 0) := by
    refine filterMap_eq_map_of_mem _ _ _ (fun p hp => ?_)
    obtain ⟨j, hj, hsafe⟩ := hmem p hp
    have hd := (safe_step j (by omega) 1 1 1 (by norm_num) (by norm_num) (by norm_num)
      (by norm_num) (by norm_num) (by norm_num) p hsafe).2
    simp only [hd, Bool.false_eq_true, if_false]
  rw [c2Step_loud_eq s hlb]
  refine ⟨?_, ?_, rfl⟩
  · rw [hmap]
    simp only [List.length_map, List.length_append, List.length_replicate]
  · intro p2 hp2
    simp only [hmap] at hp2
    obtain ⟨p, hp, rfl⟩ := List.mem_map.mp hp2
    obtain ⟨j, hj, hsafe⟩ := hmem p hp
    exact ⟨j + 1, by omega,
      (safe_step j (by omega) 1 1 1 (by norm_num) (by norm_num) (by norm_num)
        (by norm_num) (by norm_num) (by norm_num) p hsafe).1⟩

/-- Initial state of a fresh Particles effect: empty pool, lastBass = 0. -/
def c2Init : ParticlesState := { particles := [], lastBass := some 0, rngIdx := 0 }

/-- Audio schedule of the concrete run: six uniform loud frames (all bins
255) interleaved with five uniform silent frames (all bins 0), so that every
loud frame is a bass rising edge from 0 to 1 and fires the burst. -/
def c2Inputs : List (List ℕ) :=
  [loudSnap, quietSnap, loudSnap, quietSnap, loudSnap, quietSnap, loudSnap, quietSnap,
   loudSnap, quietSnap, loudSnap]

/-- The state after rendering the eleven-frame schedule from a fresh effect. -/
def c2Run : ParticlesState := c2Inputs.foldl (fun s f => c2Step f s) c2Init

/-- C2 counterexample: a concrete eleven-render sequence (alternating loud
and silent uniform snapshots on a 1000 x 1000 surface, with the injectable
random stream constantly 0 and cosine/sine oracles constantly 0) leaves 550
particles in the pool: the five earlier loud frames fill the pool to the
500 cap, and the final bass hit spawns an uncapped 50-particle burst while
no particle dies.  This refutes the claim that the pool size never exceeds
the configured maximum of 500 after a render call. -/
theorem C2_pool_cap_counterexample :
    500 < c2Run.particles.length ∧ c2Run.particles.length = 550 := by
  have h0 : INVp 0 c2Init := fun p hp => absurd hp (List.not_mem_nil p)
  obtain ⟨L1, I1, B1⟩ := loud_frame 0 (by norm_num) c2Init rfl h0
  have h1 : (c2Step loudSnap c2Init).particles.length = 100 := by
    rw [L1]
    simp only [c2Init, List.length_nil]
    omega
  obtain ⟨L2, I2, B2⟩ := quiet_frame 1 (by norm_num) _ I1
  have h2 : (c2Step quietSnap (c2Step loudSnap c2Init)).particles.length = 100 := by
    rw [L2, h1]
  obtain ⟨L3, I3, B3⟩ := loud_frame 2 (by norm_num) _ B2 I2
  have h3 : (c2Step loudSnap (c2Step quietSnap (c2Step loudSnap
      c2Init))).particles.length = 200 := by
    rw [L3, h2]
    omega
  obtain ⟨L4, I4, B4⟩ := quiet_frame 3 (by norm_num) _ I3
  have h4 : (c2Step quietSnap (c2Step loudSnap (c2Step quietSnap (c2Step loudSnap
      c2Init)))).particles.length = 200 := by
    rw [L4, h3]
  obtain ⟨L5, I5, B5⟩ := loud_frame 4 (by norm_num) _ B4 I4
  have h5 : (c2Step loudSnap (c2Step quietSnap (c2Step loudSnap (c2Step quietSnap
      (c2Step loudSnap c2Init))))).particles.length = 300 := by
    rw [L5, h4]
    omega
  obtain ⟨L6, I6, B6⟩ := quiet_frame 5 (by norm_num) _ I5
  have h6 : (c2Step quietSnap (c2Step loudSnap (c2Step quietSnap (c2Step loudSnap
      (c2Step quietSnap (c2Step loudSnap c2Init)))))).particles.length = 300 := by
    rw [L6, h5]
  obtain ⟨L7, I7, B7⟩ := loud_frame 6 (by norm_num) _ B6 I6
  have h7 : (c2Step loudSnap (c2Step quietSnap (c2Step loudSnap (c2Step quietSnap
      (c2Step loudSnap (c2Step quietSnap (c2Step loudSnap
      c2Init))))))).particles.length = 400 := by
    rw [L7, h6]
    omega
  obtain ⟨L8, I8, B8⟩ := quiet_frame 7 (by norm_num) _ I7
  have h8 : (c2Step quietSnap (c2Step loudSnap (c2Step quietSnap (c2Step loudSnap
      (c2Step quietSnap (c2Step loudSnap (c2Step quietSnap (c2Step loudSnap
      c2Init)))))))).particles.length = 400 := by
    rw [L8, h7]
  obtain ⟨L9, I9, B9⟩ := loud_frame 8 (by norm_num) _ B8 I8
  have h9 : (c2Step loudSnap (c2Step quietSnap (c2Step loudSnap (c2Step quietSnap
      (c2Step loudSnap (c2Step quietSnap (c2Step loudSnap (c2Step quietSnap
      (c2Step loudSnap c2Init))))))))).particles.length = 500 := by
    rw [L9, h8]
    omega
  obtain ⟨L10, I10, B10⟩ := quiet_frame 9 (by norm_num) _ I9
  have h10 : (c2Step quietSnap (c2Step loudSnap (c2Step quietSnap (c2Step loudSnap
      (c2Step quietSnap (c2Step loudSnap (c2Step quietSnap (c2Step loudSnap
      (c2Step quietSnap (c2Step loudSnap c2Init)))))))))).particles.length = 500 := by
    rw [L10, h9]
  obtain ⟨L11, I11, B11⟩ := loud_frame 10 (by norm_num) _ B10 I10
  have h11 : (c2Step loudSnap (c2Step quietSnap (c2Step loudSnap (c2Step quietSnap
      (c2Step loudSnap (c2Step quietSnap (c2Step loudSnap (c2Step quietSnap
      (c2Step loudSnap (c2Step quietSnap (c2Step loudSnap
      c2Init))))))))))).particles.length = 550 := by
    rw [L11, h10]
    omega
  have hrun : c2Run = c2Step loudSnap (c2Step quietSnap (c2Step loudSnap (c2Step quietSnap
      (c2Step loudSnap (c2Step quietSnap (c2Step loudSnap (c2Step quietSnap
      (c2Step loudSnap (c2Step quietSnap (c2Step loudSnap c2Init)))))))))) := rfl
  rw [hrun, h11]
  norm_num

/-! Terrain history ring (src/visualizers/Terrain.ts).  Each render builds a
64-point height row from the frequency snapshot (value NaN when the snapshot
is empty, as freqData[0] is undefined), unshifts it onto the history, and
pops the last (oldest) row when the length exceeds historyLength = 100. -/

/-- Height row sampled by one Terrain render: for i < 64, bin
floor((i/64) * N * 0.6) = floor(3*i*N/320) divided by 255. -/
def terrainRow (freq : List ℕ) : List JQ :=
  (List.range 64).map (fun i =>
    JQ.div (JQ.jsIndex freq ((3 * i * freq.length) / 320)) (some 255))

/-- Effect of one Terrain render on the history ring: unshift the new row,
then pop the oldest row when the ring holds more than 100 rows. -/
def terrainStep (freq : List ℕ) (history : List (List JQ)) : List (List JQ) :=
  if 100 < (terrainRow freq :: history).length
  then (terrainRow freq :: history).dropLast
  else terrainRow freq :: history

theorem terrainStep_length_le (freq : List ℕ) (history : List (List JQ))
    (h : history.length ≤ 100) : (terrainStep freq history).length ≤ 100 := by
  rw [terrainStep]
  split
  · rw [List.length_dropLast, List.length_cons]
    omega
  · rename_i hle
    rw [List.length_cons] at hle ⊢
    omega

/-- C7: starting from an empty history ring, after every sequence of Terrain
render calls the ring holds at most 100 rows; and when a render pushes a row
while the ring already holds exactly 100 rows, the result is the new row
followed by the previous ring minus its last element — exactly one row, the
oldest, is evicted, and the ring length stays 100. -/
theorem C7_history_ring (freqs : List (List ℕ)) (freq : List ℕ)
    (hist : List (List JQ)) (hcap : hist.length = 100) :
    (freqs.foldl (fun h f => terrainStep f h) []).length ≤ 100 ∧
    terrainStep freq hist = terrainRow freq :: hist.dropLast ∧
    (terrainStep freq hist).length = 100 := by
  refine ⟨?_, ?_, ?_⟩
  · have hgen : ∀ (l : List (List ℕ)) (h0 : List (List JQ)), h0.length ≤ 100 →
        (l.foldl (fun h f => terrainStep f h) h0).length ≤ 100 := by
      intro l
      induction l with
      | nil => intro h0 hh; simpa using hh
      | cons f t ih =>
          intro h0 hh
          rw [List.foldl_cons]
          exact ih _ (terrainStep_length_le f h0 hh)
    exact hgen freqs [] (by simp)
  · rw [terrainStep, if_pos (by rw [List.length_cons, hcap]; omega)]
    have hne : hist ≠ [] := by
      intro hnil
      rw [hnil] at hcap
      simp at hcap
    exact List.dropLast_cons_of_ne_nil hne
  · rw [terrainStep, if_pos (by rw [List.length_cons, hcap]; omega),
      List.length_dropLast, List.length_cons, hcap]

/-- C7 witness: the theorem applied to a concrete three-render schedule and
a concrete full ring of 100 empty rows. -/
theorem C7_history_ring_witness :
    (([[], [5], [7, 7]] : List (List ℕ)).foldl
      (fun h f => terrainStep f h) []).length ≤ 100 ∧
    terrainStep [9] (List.replicate 100 ([] : List JQ)) =
      terrainRow [9] :: (List.replicate 100 ([] : List JQ)).dropLast ∧
    (terrainStep [9] (List.replicate 100 ([] : List JQ))).length = 100 :=
  C7_history_ring [[], [5], [7, 7]] [9] (List.replicate 100 []) (by simp)

/-! Effect registry and switcher (VisualizerEngine).  An effect instance is
abstracted to its display name plus whether it implements the optional reset
hook; observable side effects (console warning, reset call, installation,
render dispatch) are recorded as an action trace. -/

/-- Abstraction of a Visualizer instance: display name and whether the
optional reset (teardown) hook is present. -/
structure VEffect where
  name : String
  hasReset : Bool
deriving DecidableEq, Repr

/-- VisualizerEngine state relevant to registration and switching: the
id-to-effect mapping backed by a Map, and the current effect (if any). -/
structure VisEngine where
  visualizers : String → Option VEffect
  current : Option VEffect

/-- Observable actions of the switcher and the frame loop. -/
inductive VAction where
  | warn (id : String)
  | reset (name : String)
  | install (name : String)
  | render (name : String)
deriving DecidableEq, Repr

/-- VisualizerEngine.registerVisualizer: Map.set, so a later registration
for the same id wins. -/
def registerVisualizer (e : VisEngine) (id : String) (v : VEffect) : VisEngine :=
  { e with visualizers := fun k => if k = id then some v else e.visualizers k }

/-- VisualizerEngine.setVisualizer: an unknown id warns and changes nothing;
a known id runs the previous effect's reset hook (when present) and then
installs the looked-up effect as current. -/
def setVisualizer (e : VisEngine) (id : String) : VisEngine × List VAction :=
  match e.visualizers id with
  | none => (e, [VAction.warn id])
  | some v =>
      ({ e with current := some v },
       (match e.current with
        | some c => if c.hasReset then [VAction.reset c.name] else []
        | none => []) ++ [VAction.install v.name])

/-- VisualizerEngine.getCurrentVisualizerName. -/
def getCurrentVisualizerName (e : VisEngine) : String :=
  match e.current with
  | some c => c.name
  | none => ""

/-- Render dispatch of one animation frame: the current effect's render runs
only when one is installed and the audio engine is running. -/
def frameRender (e : VisEngine) (audioRunning : Bool) : List VAction :=
  match e.current, audioRunning with
  | some c, true => [VAction.render c.name]
  | _, _ => []

/-- C8: activating an id absent from the registry leaves the engine
unchanged, emits only the warning, and performs no teardown; activating a
registered id installs the looked-up effect as current without touching the
registry, the previous effect's teardown (when it has one) is the first
action and precedes the install, no teardown runs when the previous effect
lacks the hook or none is active, and the next rendered frame runs the
incoming effect — so the outgoing teardown always precedes the incoming
effect's first render. -/
theorem C8_switcher_contract (e : VisEngine) (id : String) :
    (e.visualizers id = none →
      setVisualizer e id = (e, [VAction.warn id]) ∧
      ∀ n, VAction.reset n ∉ (setVisualizer e id).2) ∧
    (∀ v, e.visualizers id = some v →
      (setVisualizer e id).1.current = some v ∧
      (setVisualizer e id).1.visualizers = e.visualizers ∧
      (∀ run : Bool, frameRender (setVisualizer e id).1 run =
        if run then [VAction.render v.name] else []) ∧
      (∀ c, e.current = some c → c.hasReset = true →
        (setVisualizer e id).2 = [VAction.reset c.name, VAction.install v.name]) ∧
      (∀ c, e.current = some c → c.hasReset = false →
        (setVisualizer e id).2 = [VAction.install v.name]) ∧
      (e.current = none → (setVisualizer e id).2 = [VAction.install v.name])) := by
  constructor
  · intro hnone
    rw [setVisualizer]
    rw [hnone]
    exact ⟨rfl, fun n hmem => by simp at hmem⟩
  · intro v hsome
    refine ⟨?_, ?_, ?_, ?_, ?_, ?_⟩
    · simp [setVisualizer, hsome]
    · simp [setVisualizer, hsome]
    · intro run
      cases run <;> simp [setVisualizer, hsome, frameRender]
    · intro c hc hr
      simp [setVisualizer, hsome, hc, hr]
    · intro c hc hr
      simp [setVisualizer, hsome, hc, hr]
    · intro hc
      simp [setVisualizer, hsome, hc]

/-- Concrete demonstration engine: effect A (with a reset hook) active,
effect B (without one) registered under id b. -/
def demoEngine : VisEngine where
  visualizers := fun k =>
    if k = "b" then some { name := "B", hasReset := false }
    else if k = "a" then some { name := "A", hasReset := true }
    else none
  current := some { name := "A", hasReset := true }

/-- C8 witness: the contract applied to a concrete engine with two
registered effects, activating a present id and a missing id. -/
theorem C8_switcher_contract_witness :
    (setVisualizer demoEngine "b").2 =
      [VAction.reset "A", VAction.install "B"] ∧
    setVisualizer demoEngine "zz" = (demoEngine, [VAction.warn "zz"]) := by
  refine ⟨?_, ?_⟩
  · exact ((C8_switcher_contract demoEngine "b").2 { name := "B", hasReset := false }
      rfl).2.2.2.1 { name := "A", hasReset := true } rfl rfl
  · exact ((C8_switcher_contract demoEngine "zz").1 rfl).1

/-! Starfield (src/visualizers/Starfield.ts).  Stars fly toward the camera;
the per-frame speed low-pass filters toward a bass-driven target; stars
crossing z <= 1 are replaced via createStar(false). -/

/-- Star record (interface Star in the source). -/
structure StarPt where
  x : JQ
  y : JQ
  z : JQ
  prevX : JQ
  prevY : JQ
  size : JQ
  hue : JQ
deriving DecidableEq, Repr

/-- Starfield state: the star array, the filtered speed, its target, and the
Math.random() cursor. -/
structure StarfieldState where
  stars : List StarPt
  speed : JQ
  targetSpeed : JQ
  rngIdx : ℕ
deriving DecidableEq, Repr

/-- Starfield.createStar: position jitter in [-1000, 1000), depth z random
in [0, 1000) only when randomZ is true and the fixed constant 1000 otherwise;
returns the star and the advanced random cursor (five draws with randomZ,
four without, in source evaluation order). -/
def createStar (rng : ℕ → ℚ) (k : ℕ) (randomZ : Bool) : StarPt × ℕ :=
  if randomZ then
    ({ x := some ((rng k - 1/2) * 2000), y := some ((rng (k+1) - 1/2) * 2000),
       z := some (rng (k+2) * 1000), prevX := some 0, prevY := some 0,
       size := some (rng (k+3) * 2 + 1), hue := some (rng (k+4) * 60 + 200) }, k + 5)
  else
    ({ x := some ((rng k - 1/2) * 2000), y := some ((rng (k+1) - 1/2) * 2000),
       z := some 1000, prevX := some 0, prevY := some 0,
       size := some (rng (k+2) * 2 + 1), hue := some (rng (k+3) * 60 + 200) }, k + 4)

/-- Per-star body of the render loop: decrement z by the frame speed, then
replace the star via createStar(false) when z <= 1 (NaN comparisons false). -/
def starUpdate (speed : JQ) (rng : ℕ → ℚ) (k : ℕ) (star : StarPt) : StarPt × ℕ :=
  if JQ.le (star.z - speed) (some 1) then createStar rng k false
  else ({ star with z := star.z - speed }, k)

/-- Forward iteration over the (sorted) star array, threading the random
cursor. -/
def starsLoop (speed : JQ) (rng : ℕ → ℚ) : List StarPt → ℕ → List StarPt × ℕ
  | [], k => ([], k)
  | s :: rest, k =>
      let r := starUpdate speed rng k s
      let rr := starsLoop speed rng rest r.2
      (r.1 :: rr.1, rr.2)

/-- Sort order of stars.sort((a, b) => b.z - a.z): descending depth; pairs
involving a non-finite depth keep their relative order (the comparator
contract leaves NaN cases unspecified; no claim depends on the order). -/
def starOrder (a b : StarPt) : Bool :=
  match a.z, b.z with
  | some x, some y => decide (y ≤ x)
  | _, _ => true

/-- One Starfield.render call: update the speed filter
(speed += (target - speed) * 0.1 with target = 2 + bass*25 + average*10),
sort back-to-front, then run the per-star update loop. -/
def starfieldStep (rng : ℕ → ℚ) (freq : List ℕ) (width height time : ℚ)
    (s : StarfieldState) : StarfieldState :=
  let bass := getBassAmplitude freq
  let average := getAverageAmplitude freq
  let targetSpeed := some 2 + bass * some 25 + average * some 10
  let speed := s.speed + (targetSpeed - s.speed) * some (1/10)
  let r := starsLoop speed rng (s.stars.mergeSort starOrder) s.rngIdx
  { stars := r.1, speed := speed, targetSpeed := targetSpeed, rngIdx := r.2 }

/-- C9 as amended: in the per-star update of every Starfield render, a star
whose depth after the speed decrement is <= 1 is respawned with the fixed
depth z = 1000 — independent of the random stream — not at a random depth;
a star that does not cross keeps its decremented depth.  Randomized depths
occur only at initialization (createStar(true)). -/
theorem C9_respawn_depth_fixed (speed : JQ) (rng : ℕ → ℚ) (k : ℕ) (star : StarPt) :
    (JQ.le (star.z - speed) (some 1) = true →
      (starUpdate speed rng k star).1.z = some 1000) ∧
    (JQ.le (star.z - speed) (some 1) = false →
      (starUpdate speed rng k star).1.z = star.z - speed) ∧
    (createStar rng k false).1.z = some 1000 := by
  refine ⟨?_, ?_, rfl⟩
  · intro h
    rw [starUpdate, if_pos h]
    rfl
  · intro h
    rw [starUpdate, if_neg (by rw [h]; exact Bool.false_ne_true)]

/-- Constant one-half random stream, used to contrast with the zero stream. -/
def halfRng : ℕ → ℚ := fun _ => 1/2

/-- One-star Starfield state whose star is about to cross the camera. -/
def st9 : StarfieldState :=
  { stars := [{ x := some 0, y := some 0, z := some 1, prevX := some 0, prevY := some 0,
                size := some 1, hue := some 200 }],
    speed := some 0, targetSpeed := some 2, rngIdx := 0 }

/-- C9 counterexample: rendering the one-star state on silent audio makes
the star cross z <= 1 and respawn; under two random streams that differ at
the draw the claimed random depth would consume, the respawned depth is the
same fixed 1000 — the replacement depth is not drawn at random. -/
theorem C9_fixed_depth_counterexample :
    (starfieldStep zeroRng [] 100 100 0 st9).stars.map (fun s => s.z) = [some 1000] ∧
    (starfieldStep halfRng [] 100 100 0 st9).stars.map (fun s => s.z) = [some 1000] ∧
    zeroRng 2 ≠ halfRng 2 := by
  have hb : getBassAmplitude [] = some 0 := rfl
  have ha : getAverageAmplitude [] = some 0 := rfl
  have htgt : (some 2 + some 0 * some 25 + some 0 * some 10 : JQ) = some 2 := by
    rw [jq_some_mul, jq_some_mul, jq_some_add, jq_some_add]
    norm_num
  have hspd : (some 0 + (some 2 - some 0) * some (1/10 : ℚ) : JQ) = some (1/5) := by
    rw [jq_some_sub, jq_some_mul, jq_some_add]
    norm_num
  have hle : JQ.le (some (1 : ℚ) - some (1/5)) (some 1) = true := by
    rw [jq_some_sub, jq_le_some]
    exact decide_eq_true (by norm_num)
  refine ⟨?_, ?_, by norm_num [zeroRng, halfRng]⟩ <;>
  · simp only [starfieldStep, st9, hb, ha, htgt, hspd, List.mergeSort_singleton,
      starsLoop, starUpdate]
    rw [hle]
    simp only [if_true, createStar, Bool.false_eq_true, if_false, List.map_cons, List.map_nil]

/-- C9 witness: the amended theorem applied to a concrete crossing star
(z = 1, speed 1/5), with the crossing hypothesis discharged concretely. -/
theorem C9_respawn_depth_fixed_witness :
    JQ.le (some (1 : ℚ) - some (1/5)) (some 1) = true ∧
    (starUpdate (some (1/5)) zeroRng 0
      { x := some 0, y := some 0, z := some 1, prevX := some 0, prevY := some 0,
        size := some 1, hue := some 200 }).1.z = some 1000 :=
  ⟨by rw [jq_some_sub, jq_le_some]; exact decide_eq_true (by norm_num),
   (C9_respawn_depth_fixed (some (1/5)) zeroRng 0
      { x := some 0, y := some 0, z := some 1, prevX := some 0, prevY := some 0,
        size := some 1, hue := some 200 }).1
     (by rw [jq_some_sub, jq_le_some]; exact decide_eq_true (by norm_num))⟩

/-! Geiss bilinear sampler (src/visualizers/Geiss.ts, sampleBilinear).
Coordinates are clamped to [0, dim - 1.001] before flooring; the read for a
typed-array index is modelled by readByte (undefined outside the buffer). -/

/-- Lower neighbor index on one axis: floor of the coordinate clamped to
[0, n - 1.001] (the literal 1.001 is the exact rational of the source
constant; its double value has the same floor behavior). -/
def bilinearLow (n : ℕ) (v : ℚ) : ℤ := Int.floor (max 0 (min ((n : ℚ) - 1001/1000) v))

/-- Upper neighbor index on one axis: min(low + 1, n - 1). -/
def bilinearHigh (n : ℕ) (v : ℚ) : ℤ := min (bilinearLow n v + 1) ((n : ℤ) - 1)

/-- Read src[i] from a byte buffer with a (possibly negative) integer index;
out of range is undefined, poisoning arithmetic to NaN. -/
def readByte (src : List ℕ) (i : ℤ) : JQ :=
  if i < 0 then none else JQ.jsIndex src i.toNat

/-- Geiss.sampleBilinear: clamp, take the four neighbors, and blend the
three color channels with the bilinear weights. -/
def sampleBilinear (w h : ℕ) (src : List ℕ) (x y : ℚ) : JQ × JQ × JQ :=
  let xc := max 0 (min ((w : ℚ) - 1001/1000) x)
  let yc := max 0 (min ((h : ℚ) - 1001/1000) y)
  let x0 := bilinearLow w x
  let y0 := bilinearLow h y
  let x1 := bilinearHigh w x
  let y1 := bilinearHigh h y
  let fx := xc - x0
  let fy := yc - y0
  let idx00 := (y0 * w + x0) * 4
  let idx10 := (y0 * w + x1) * 4
  let idx01 := (y1 * w + x0) * 4
  let idx11 := (y1 * w + x1) * 4
  let w00 := some ((1 - fx) * (1 - fy))
  let w10 := some (fx * (1 - fy))
  let w01 := some ((1 - fx) * fy)
  let w11 := some (fx * fy)
  (readByte src idx00 * w00 + readByte src idx10 * w10 +
     readByte src idx01 * w01 + readByte src idx11 * w11,
   readByte src (idx00 + 1) * w00 + readByte src (idx10 + 1) * w10 +
     readByte src (idx01 + 1) * w01 + readByte src (idx11 + 1) * w11,
   readByte src (idx00 + 2) * w00 + readByte src (idx10 + 2) * w10 +
     readByte src (idx01 + 2) * w01 + readByte src (idx11 + 2) * w11)

theorem bilinear_axis_bounds (n : ℕ) (hn : 1 ≤ n) (v : ℚ) :
    0 ≤ bilinearLow n v ∧ bilinearLow n v ≤ bilinearHigh n v ∧
    bilinearHigh n v ≤ (n : ℤ) - 1 := by
  have h0 : (0 : ℤ) ≤ bilinearLow n v := by
    rw [bilinearLow, Int.le_floor]
    exact_mod_cast le_max_left (0 : ℚ) _
  have hle : bilinearLow n v ≤ (n : ℤ) - 1 := by
    have hc1 : max 0 (min ((n : ℚ) - 1001/1000) v) ≤ max 0 ((n : ℚ) - 1001/1000) :=
      max_le_max le_rfl (min_le_left _ _)
    have hc2 : max (0 : ℚ) ((n : ℚ) - 1001/1000) ≤ (n : ℚ) - 1 := by
      have hn1 : (1 : ℚ) ≤ (n : ℚ) := by exact_mod_cast hn
      apply max_le <;> linarith
    have hcast : ((n : ℤ) - 1 : ℤ) = (((n : ℤ) - 1 : ℤ) : ℚ) ∧ True := ⟨by norm_num, trivial⟩
    rw [bilinearLow]
    have : max 0 (min ((n : ℚ) - 1001/1000) v) ≤ (((n : ℤ) - 1 : ℤ) : ℚ) := by
      push_cast
      linarith
    calc Int.floor (max 0 (min ((n : ℚ) - 1001/1000) v)) ≤
        Int.floor ((((n : ℤ) - 1 : ℤ) : ℚ)) := Int.floor_le_floor this
      _ = (n : ℤ) - 1 := Int.floor_intCast _
  refine ⟨h0, ?_, ?_⟩
  · rw [bilinearHigh]
    exact le_min (by omega) hle
  · rw [bilinearHigh]
    exact min_le_right _ _

/-- C10: for every buffer of positive width and height and every finite
sample coordinate — however far outside the buffer — the clamped neighbor
indices of Geiss.sampleBilinear satisfy 0 <= x0 <= x1 <= width-1 and
0 <= y0 <= y1 <= height-1, and every flat RGBA byte offset the sampler
reads (largest is (y1*width+x1)*4 + 2) lies inside the 4*width*height-byte
source buffer, so the warp-resample step never reads outside the source. -/
theorem C10_sampleBilinear_in_bounds (w h : ℕ) (hw : 1 ≤ w) (hh : 1 ≤ h) (x y : ℚ) :
    0 ≤ bilinearLow w x ∧ bilinearLow w x ≤ bilinearHigh w x ∧
    bilinearHigh w x ≤ (w : ℤ) - 1 ∧
    0 ≤ bilinearLow h y ∧ bilinearLow h y ≤ bilinearHigh h y ∧
    bilinearHigh h y ≤ (h : ℤ) - 1 ∧
    0 ≤ (bilinearLow h y * w + bilinearLow w x) * 4 ∧
    (bilinearHigh h y * w + bilinearHigh w x) * 4 + 2 < 4 * (w * h) := by
  obtain ⟨hx0, hx01, hx1⟩ := bilinear_axis_bounds w hw x
  obtain ⟨hy0, hy01, hy1⟩ := bilinear_axis_bounds h hh y
  have hwq : (0 : ℤ) ≤ (w : ℤ) := by positivity
  have hprod : bilinearHigh h y * w ≤ ((h : ℤ) - 1) * w :=
    mul_le_mul_of_nonneg_right hy1 hwq
  have hprod0 : 0 ≤ bilinearLow h y * w := mul_nonneg hy0 hwq
  refine ⟨hx0, hx01, hx1, hy0, hy01, hy1, ?_, ?_⟩
  · positivity
  · have hexp : ((h : ℤ) - 1) * w + ((w : ℤ) - 1) = (w : ℤ) * h - 1 := by ring
    nlinarith

/-- C10 witness: the bounds evaluated on a 1 x 1 buffer at the far-outside
coordinate (5, -3). -/
theorem C10_sampleBilinear_in_bounds_witness :
    0 ≤ bilinearLow 1 (5 : ℚ) ∧ bilinearLow 1 (5 : ℚ) ≤ bilinearHigh 1 (5 : ℚ) ∧
    bilinearHigh 1 (5 : ℚ) ≤ (1 : ℤ) - 1 ∧
    0 ≤ bilinearLow 1 (-3 : ℚ) ∧ bilinearLow 1 (-3 : ℚ) ≤ bilinearHigh 1 (-3 : ℚ) ∧
    bilinearHigh 1 (-3 : ℚ) ≤ (1 : ℤ) - 1 ∧
    0 ≤ (bilinearLow 1 (-3 : ℚ) * 1 + bilinearLow 1 (5 : ℚ)) * 4 ∧
    (bilinearHigh 1 (-3 : ℚ) * 1 + bilinearHigh 1 (5 : ℚ)) * 4 + 2 < 4 * (1 * 1) :=
  C10_sampleBilinear_in_bounds 1 1 (by norm_num) (by norm_num) 5 (-3)

/-! Geiss warp effect (src/visualizers/Geiss.ts).  The transcendental
functions are an oracle parameter; Math.PI is the exact double constant;
Float32 warp-map entries are modelled as exact rationals (the extra Float32
rounding affects no claim).  buffer1, buffer2, warpMapX, warpMapY and the
dimensions are null together in every reachable state (initBuffers sets
them all, reset clears them all), so they are bundled in one Option. -/

/-- Trigonometric oracle: the platform's double-precision cos, sin, atan2
and sqrt, abstracted as exact functions on their rational arguments. -/
structure TrigOracle where
  cosF : ℚ → ℚ
  sinF : ℚ → ℚ
  atan2F : ℚ → ℚ → ℚ
  sqrtF : ℚ → ℚ

/-- Unary application of an oracle function to a JavaScript number: NaN in,
NaN out. -/
def jqApp (f : ℚ → ℚ) (a : JQ) : JQ := match a with
  | some q => some (f q)
  | none => none

/-- Math.min as a binary operation on JavaScript numbers. -/
def jsMin (a b : JQ) : JQ := match a, b with
  | some x, some y => some (min x y)
  | _, _ => none

/-- Math.max as a binary operation on JavaScript numbers. -/
def jsMax (a b : JQ) : JQ := match a, b with
  | some x, some y => some (max x y)
  | _, _ => none

/-- Round half to even on an exact rational (the rounding mode of
Uint8ClampedArray stores). -/
def roundHalfEven (q : ℚ) : ℤ :=
  let f := Int.floor q
  let r := q - f
  if r < 1/2 then f
  else if 1/2 < r then f + 1
  else if f % 2 = 0 then f else f + 1

/-- Store a JavaScript number into a Uint8ClampedArray cell: NaN becomes 0,
finite values are clamped to [0, 255] and rounded half to even. -/
def u8Write (a : JQ) : ℕ := match a with
  | none => 0
  | some q => (roundHalfEven (min 255 (max 0 q))).toNat

/-- Math.round: floor(x + 1/2); NaN stays NaN. -/
def jsRound (a : JQ) : JQ := match a with
  | some q => some ((Int.floor (q + 1/2) : ℤ) : ℚ)
  | none => none

/-- Geiss.hslToRgb helper hue2rgb, with JavaScript NaN comparison
semantics. -/
def hue2rgb (p q t : JQ) : JQ :=
  let t1 := if JQ.lt t (some 0) then t + some 1 else t
  let t2 := if JQ.lt (some 1) t1 then t1 - some 1 else t1
  if JQ.lt t2 (some (1/6)) then p + (q - p) * some 6 * t2
  else if JQ.lt t2 (some (1/2)) then q
  else if JQ.lt t2 (some (2/3)) then p + (q - p) * (some (2/3) - t2) * some 6
  else p

/-- Geiss.hslToRgb: piecewise HSL to RGB conversion, each channel rounded
with Math.round after scaling by 255. -/
def hslToRgb (h s l : JQ) : JQ × JQ × JQ :=
  if s = some 0 then (jsRound (l * some 255), jsRound (l * some 255), jsRound (l * some 255))
  else
    let q := if JQ.lt l (some (1/2)) then l * (some 1 + s) else l + s - l * s
    let p := some 2 * l - q
    (jsRound (hue2rgb p q (h + some (1/3)) * some 255),
     jsRound (hue2rgb p q h * some 255),
     jsRound (hue2rgb p q (h - some (1/3)) * some 255))

/-- sampleBilinear lifted to possibly-NaN warp coordinates: a NaN source
coordinate makes every sampled channel NaN (undefined reads). -/
def sampleBilinearJ (w h : ℕ) (src : List ℕ) (x y : JQ) : JQ × JQ × JQ :=
  match x, y with
  | some a, some b => sampleBilinear w h src a b
  | _, _ => (none, none, none)

/-- Bundle of the double buffers and warp maps with their dimensions. -/
structure GeissBuffers where
  w : ℕ
  h : ℕ
  buffer1 : List ℕ
  buffer2 : List ℕ
  warpMapX : List JQ
  warpMapY : List JQ

/-- Geiss effect state. -/
structure GeissState where
  buffers : Option GeissBuffers
  currentBuffer : ℕ
  warpTime : JQ
  warpMode : ℕ
  warpModeTimer : JQ
  colorPhase : JQ
  rngIdx : ℕ

/-- Geiss.initBuffers: two black RGBA buffers (alpha 255) and zeroed warp
maps at the scaled dimensions.  The `new ImageData(width, height)`
constructor throws IndexSizeError when either dimension is 0, modeled as
`none`; the thrown exception aborts the whole render call. -/
def initBuffers (w h : ℕ) : Option GeissBuffers :=
  if w = 0 ∨ h = 0 then none else
  some
    { w := w, h := h,
      buffer1 := (List.range (w * h)).foldr (fun _ acc => 0 :: 0 :: 0 :: 255 :: acc) [],
      buffer2 := (List.range (w * h)).foldr (fun _ acc => 0 :: 0 :: 0 :: 255 :: acc) [],
      warpMapX := List.replicate (w * h) (some 0),
      warpMapY := List.replicate (w * h) (some 0) }

/-- Warp source coordinate for one pixel, by warp mode (Geiss.updateWarpMap
switch): 0 spiral zoom, 1 wavy tunnel, 2 flowing streams, 3 kaleidoscope,
default gentle swirl. -/
def warpSrc (o : TrigOracle) (mode : ℕ) (w h : ℕ) (bass mid time : JQ)
    (x y : ℕ) : JQ × JQ :=
  let cx : ℚ := (w : ℚ) / 2
  let cy : ℚ := (h : ℚ) / 2
  let maxDist : ℚ := o.sqrtF (cx * cx + cy * cy)
  let zoom := some (49/50 : ℚ) + bass * some (1/50)
  let rotation := some (1/50 : ℚ) + mid * some (3/100)
  let spiralStrength := some (3/10 : ℚ) + bass * some (1/2)
  let waveAmp := some (5 : ℚ) + mid * some 10
  let waveFreq := some (1/50 : ℚ) + bass * some (1/100)
  let dx : ℚ := (x : ℚ) - cx
  let dy : ℚ := (y : ℚ) - cy
  let dist : ℚ := o.sqrtF (dx * dx + dy * dy)
  let angle : ℚ := o.atan2F dy dx
  let normDist := JQ.div (some dist) (some maxDist)
  match mode with
  | 0 =>
      let newAngle := some angle + rotation + spiralStrength * normDist
      let newDist := some dist * zoom
      (some cx + jqApp o.cosF newAngle * newDist, some cy + jqApp o.sinF newAngle * newDist)
  | 1 =>
      let wave := jqApp o.sinF (some dist * waveFreq + time * some 2) * waveAmp * normDist
      let newDist := some dist * zoom + wave * some (1/10)
      (some cx + jqApp o.cosF (some angle + rotation) * newDist,
       some cy + jqApp o.sinF (some angle + rotation) * newDist)
  | 2 =>
      let flowX := jqApp o.sinF (some ((y : ℚ) * (1/50)) + time) * some 3
      let flowY := jqApp o.cosF (some ((x : ℚ) * (1/50)) + time * some (7/10)) * some 3
      (some (x : ℚ) * zoom + (some cx - some (x : ℚ) * zoom) * some (1/50) + flowX,
       some (y : ℚ) * zoom + (some cy - some (y : ℚ) * zoom) * some (1/50) + flowY)
  | 3 =>
      let seg : ℚ := jsPI * 2 / 6
      let symAngle := jsRem (jsRem (some angle) (some seg) + some seg) (some seg)
      let newDist := some dist * zoom
      (some cx + jqApp o.cosF (symAngle + rotation) * newDist,
       some cy + jqApp o.sinF (symAngle + rotation) * newDist)
  | _ =>
      let swirl := normDist * spiralStrength
      (some cx + (some dx * jqApp o.cosF swirl - some dy * jqApp o.sinF swirl) * zoom,
       some cy + (some dx * jqApp o.sinF swirl + some dy * jqApp o.cosF swirl) * zoom)

/-- Geiss.updateWarpMap: recompute both warp maps over the pixel grid in
row-major order (the maps are always allocated here, so the null guard of
the source never fires). -/
def updateWarpMap (o : TrigOracle) (mode : ℕ) (bass mid time : JQ)
    (bufs : GeissBuffers) : GeissBuffers :=
  let grid := (List.range (bufs.w * bufs.h)).map (fun i =>
    warpSrc o mode bufs.w bufs.h bass mid time (i % bufs.w) (i / bufs.w))
  { bufs with warpMapX := grid.map Prod.fst, warpMapY := grid.map Prod.snd }

/-- Index of an integral JavaScript number used after an in-bounds check. -/
def jqIdx (a : JQ) : ℕ := match a with
  | some q => (Int.floor q).toNat
  | none => 0

/-- Additive channel write data[idx] = min(255, data[idx] + amt) into a
Uint8ClampedArray. -/
def addChannel (data : List ℕ) (idx : ℕ) (amt : JQ) : List ℕ :=
  data.set idx (u8Write (jsMin (some 255) (some ((data.getD idx 0 : ℕ) : ℚ) + amt)))

/-- Additive RGB write at an integer point, skipped when the point is out of
bounds or any coordinate is NaN (all comparisons false). -/
def drawPoint (w h : ℕ) (data : List ℕ) (x y : JQ) (r g b : JQ) : List ℕ :=
  if JQ.le (some 0) x && JQ.lt x (some (w : ℚ)) &&
     JQ.le (some 0) y && JQ.lt y (some (h : ℚ)) then
    addChannel (addChannel (addChannel data ((jqIdx y * w + jqIdx x) * 4) r)
      ((jqIdx y * w + jqIdx x) * 4 + 1) g) ((jqIdx y * w + jqIdx x) * 4 + 2) b
  else data

/-- Frequency-spark loop of Geiss.drawWaveform: each iteration draws two
randoms (angle, distance) and a third (hue jitter) only when the spark lands
inside the buffer. -/
def sparkLoop (o : TrigOracle) (rng : ℕ → ℚ) (w h : ℕ) (cx cy : ℚ) (hue : JQ) :
    ℕ → List ℕ → ℕ → List ℕ × ℕ
  | 0, d, k => (d, k)
  | n + 1, d, k =>
      let angle := rng k * jsPI * 2
      let dist := 20 + rng (k + 1) * 100
      let px := Int.floor (cx + o.cosF angle * dist)
      let py := Int.floor (cy + o.sinF angle * dist)
      if 0 ≤ px ∧ px < (w : ℤ) ∧ 0 ≤ py ∧ py < (h : ℤ) then
        let sparkHue := jsRem (hue + some (rng (k + 2) * 60)) (some 360)
        let rgb := hslToRgb (JQ.div sparkHue (some 360)) (some 1) (some (4/5))
        let idx := (py.toNat * w + px.toNat) * 4
        sparkLoop o rng w h cx cy hue n
          (addChannel (addChannel (addChannel d idx rgb.1) (idx + 1) rgb.2.1)
            (idx + 2) rgb.2.2) (k + 3)
      else sparkLoop o rng w h cx cy hue n d (k + 2)

/-- Geiss.drawWaveform: early return on an empty waveform; otherwise three
additive waveform rings (every second sample) and, when bass > 0.3, the
spark loop. -/
def drawWaveform (o : TrigOracle) (rng : ℕ → ℚ) (freq wave : List ℕ) (time : ℚ)
    (w h : ℕ) (bass : JQ) (data0 : List ℕ) (k : ℕ) : List ℕ × ℕ :=
  if wave.length = 0 then (data0, k) else
  let cx : ℚ := (w : ℚ) / 2
  let cy : ℚ := (h : ℚ) / 2
  let hue := jsRem (some (time * 50) + bass * some 100) (some 360)
  let afterLayers := (List.range 3).foldl (fun d layer =>
    let layerHue := jsRem (hue + some ((layer : ℚ) * 40)) (some 360)
    let rgb := hslToRgb (JQ.div layerHue (some 360)) (some 1) (some (3/5))
    let radius := some (50 + (layer : ℚ) * 30) + bass * some 50
    let phaseOffset : ℚ := (layer : ℚ) * jsPI * 2 / 3
    (List.range ((wave.length + 1) / 2)).foldl (fun d2 kk =>
      let i : ℕ := 2 * kk
      let angle : ℚ := ((i : ℚ) / (wave.length : ℚ)) * jsPI * 2 + time + phaseOffset
      let waveVal : ℚ := (((wave.getD i 0 : ℕ) : ℚ) - 128) / 128
      let freqVal := JQ.div (JQ.jsIndex freq ((i * freq.length) / (2 * wave.length)))
        (some 255)
      let r2 := radius + some (waveVal * 40) + freqVal * some 30
      let px := JQ.floor (some cx + some (o.cosF angle) * r2)
      let py := JQ.floor (some cy + some (o.sinF angle) * r2)
      drawPoint w h d2 px py (rgb.1 * some (1/2)) (rgb.2.1 * some (1/2))
        (rgb.2.2 * some (1/2))) d) data0
  if JQ.lt (some (3/10)) bass then
    sparkLoop o rng w h cx cy hue (JQ.toCount (JQ.floor (bass * some 30))) afterLayers k
  else (afterLayers, k)

/-- Geiss.applyWarp: resample the current buffer through the warp map with
bilinear interpolation, 0.99 decay and the RGB rotation, write into the
other buffer, then swap the buffer roles (currentBuffer = 1 -
currentBuffer).  The null guard of the source never fires because the
bundled buffers exist whenever applyWarp runs. -/
def applyWarp (o : TrigOracle) (bufs : GeissBuffers) (cur : ℕ) (colorPhase : JQ) :
    GeissBuffers × ℕ :=
  let src := if cur = 0 then bufs.buffer1 else bufs.buffer2
  let cosShift := jqApp o.cosF (colorPhase * some (1/100))
  let sinShift := jqApp o.sinF (colorPhase * some (1/100))
  let dst := (List.range (bufs.w * bufs.h)).foldr (fun idx acc =>
    let rgb := sampleBilinearJ bufs.w bufs.h src (bufs.warpMapX.getD idx none)
      (bufs.warpMapY.getD idx none)
    let r := rgb.1 * some (99/100)
    let g := rgb.2.1 * some (99/100)
    let b := rgb.2.2 * some (99/100)
    u8Write (jsMin (some 255) (jsMax (some 0) (r * cosShift + g * sinShift * some (3/10)))) ::
    u8Write (jsMin (some 255) (jsMax (some 0) (g * cosShift + b * sinShift * some (3/10)))) ::
    u8Write (jsMin (some 255) (jsMax (some 0) (b * cosShift + r * sinShift * some (3/10)))) ::
    255 :: acc) []
  (if cur = 0 then { bufs with buffer2 := dst } else { bufs with buffer1 := dst }, 1 - cur)

/-- One Geiss.render call: lazily (re)allocate the scaled buffers, advance
the timers, possibly switch warp mode (every 8 seconds of timer or on a
strong beat after 2), recompute the warp map, draw the waveform into the
current buffer, apply the warp (which swaps the buffer roles), and blit.
When the lazy (re)allocation runs with a scaled dimension of 0 (positive
width or height below 2) the ImageData constructor throws IndexSizeError
and the call aborts with no state change, modeled as `none`. -/
def geissStep (o : TrigOracle) (rng : ℕ → ℚ) (freq wave : List ℕ)
    (width height time : ℚ) (s : GeissState) : Option GeissState :=
  let w := (Int.floor (width / 2)).toNat
  let h := (Int.floor (height / 2)).toNat
  let bufsAlloc := match s.buffers with
    | some b => if b.w = w ∧ b.h = h then some b else initBuffers w h
    | none => initBuffers w h
  bufsAlloc.map (fun bufs0 =>
    let bass := getBassAmplitude freq
    let mid := getMidAmplitude freq
    let warpTime := s.warpTime + some (2/125) * (some 1 + bass)
    let colorPhase := s.colorPhase + (some 1 + mid * some 2)
    let t0 := s.warpModeTimer + some (2/125)
    let modeSwitch := JQ.lt (some 8) t0 || (JQ.lt (some (7/10)) bass && JQ.lt (some 2) t0)
    let warpMode := if modeSwitch then (s.warpMode + 1) % 5 else s.warpMode
    let warpModeTimer := if modeSwitch then some 0 else t0
    let bufs1 := updateWarpMap o warpMode bass mid warpTime bufs0
    let curData := if s.currentBuffer = 0 then bufs1.buffer1 else bufs1.buffer2
    let dw := drawWaveform o rng freq wave time bufs1.w bufs1.h bass curData s.rngIdx
    let bufs2 := if s.currentBuffer = 0 then { bufs1 with buffer1 := dw.1 }
                 else { bufs1 with buffer2 := dw.1 }
    let aw := applyWarp o bufs2 s.currentBuffer colorPhase
    { buffers := some aw.1, currentBuffer := aw.2, warpTime := warpTime,
      warpMode := warpMode, warpModeTimer := warpModeTimer, colorPhase := colorPhase,
      rngIdx := dw.2 })

/-- Fresh Geiss state (field initializers of the class, also restored by
reset). -/
def geissInit : GeissState :=
  { buffers := none, currentBuffer := 0, warpTime := some 0, warpMode := 0,
    warpModeTimer := some 0, colorPhase := some 0, rngIdx := 0 }

/-- Inputs of one render call: frequency snapshot, waveform snapshot,
width, height, time. -/
def GFrame : Type := List ℕ × List ℕ × ℚ × ℚ × ℚ

/-- Render a sequence of frames; a thrown IndexSizeError (a `none` step)
ends the run. -/
def runGeiss (o : TrigOracle) (rng : ℕ → ℚ) (frames : List GFrame)
    (s : Option GeissState) : Option GeissState :=
  frames.foldl (fun st f => st.bind (geissStep o rng f.1 f.2.1 f.2.2.1 f.2.2.2.1 f.2.2.2.2)) s

theorem geissStep_flip (o : TrigOracle) (rng : ℕ → ℚ) (freq wave : List ℕ)
    (width height time : ℚ) (s s' : GeissState)
    (h : geissStep o rng freq wave width height time s = some s') :
    s'.currentBuffer = 1 - s.currentBuffer := by
  simp only [geissStep, Option.map_eq_some'] at h
  obtain ⟨bufs0, _, hf⟩ := h
  rw [← hf]
  rfl

theorem geissStep_some (o : TrigOracle) (rng : ℕ → ℚ) (freq wave : List ℕ)
    (width height time : ℚ) (s : GeissState)
    (hw : 1 ≤ (Int.floor (width / 2)).toNat) (hh : 1 ≤ (Int.floor (height / 2)).toNat) :
    ∃ s', geissStep o rng freq wave width height time s = some s' ∧
      s'.currentBuffer = 1 - s.currentBuffer := by
  have hbb : ∃ bb, initBuffers (Int.floor (width / 2)).toNat
      (Int.floor (height / 2)).toNat = some bb := by
    rw [initBuffers, if_neg (by omega :
      ¬((Int.floor (width / 2)).toNat = 0 ∨ (Int.floor (height / 2)).toNat = 0))]
    exact ⟨_, rfl⟩
  obtain ⟨bb, hb⟩ := hbb
  simp only [geissStep]
  cases hs : s.buffers with
  | none =>
      simp only [hs, hb, Option.map_some']
      exact ⟨_, rfl, rfl⟩
  | some b =>
      by_cases hmatch : b.w = (Int.floor (width / 2)).toNat ∧
          b.h = (Int.floor (height / 2)).toNat
      · simp only [hs, if_pos hmatch, Option.map_some']
        exact ⟨_, rfl, rfl⟩
      · simp only [hs, if_neg hmatch, hb, Option.map_some']
        exact ⟨_, rfl, rfl⟩

theorem floor_q_4_2 : (Int.floor ((4 : ℚ) / 2)).toNat = 2 := by
  have h : ((4 : ℚ) / 2) = ((2 : ℤ) : ℚ) := by norm_num
  rw [h, Int.floor_intCast]
  rfl

theorem floor_q_1_2 : (Int.floor ((1 : ℚ) / 2)).toNat = 0 := by
  have h : Int.floor ((1 : ℚ) / 2) = 0 := by
    rw [Int.floor_eq_zero_iff, Set.mem_Ico]
    constructor <;> norm_num
  rw [h]
  rfl

/-- Zero trig oracle used for concrete instantiation. -/
def zeroOracle : TrigOracle :=
  { cosF := fun _ => 0, sinF := fun _ => 0, atan2F := fun _ _ => 0, sqrtF := fun _ => 0 }

/-- C5 counterexample: a resize that keeps width and height positive can
abort the render with no buffer flip.  On a fresh Geiss state at canvas
size 1 by 1 (or any positive dimension below 2) the lazy allocation runs
`new ImageData(0, 0)`, which throws IndexSizeError before applyWarp, so the
claimed once-per-call alternation fails inside the claimed domain. -/
theorem C5_small_canvas_counterexample :
    geissStep zeroOracle zeroRng [] [] 1 1 0 geissInit = none := by
  simp only [geissStep, geissInit, floor_q_1_2, initBuffers]
  simp

/-- C5 (amended): the buffer role flips exactly once in every render call
that returns (regardless of audio input, resizes, or lazy reallocation);
a call that must (re)allocate at a scaled dimension of 0 (positive width or
height below 2) instead throws in the ImageData constructor before the
swap.  Over any schedule of frames whose scaled dimensions are positive,
every call returns and after k frames the role equals the initial role XOR
(k mod 2). -/
theorem C5_buffer_swap_alternates (o : TrigOracle) (rng : ℕ → ℚ)
    (frames : List GFrame) (s : GeissState) (hcb : s.currentBuffer ≤ 1)
    (hdims : ∀ f ∈ frames, 1 ≤ (Int.floor (f.2.2.1 / 2)).toNat ∧
      1 ≤ (Int.floor (f.2.2.2.1 / 2)).toNat) :
    (∀ freq wave width height time st st',
      geissStep o rng freq wave width height time st = some st' →
        st'.currentBuffer = 1 - st.currentBuffer) ∧
    ∃ s', runGeiss o rng frames (some s) = some s' ∧
      s'.currentBuffer = (s.currentBuffer + frames.length) % 2 := by
  refine ⟨fun freq wave width height time st st' h =>
    geissStep_flip o rng freq wave width height time st st' h, ?_⟩
  induction frames generalizing s with
  | nil =>
      refine ⟨s, rfl, ?_⟩
      rw [List.length_nil]
      omega
  | cons f t ih =>
      obtain ⟨s1, hs1, hcb1⟩ := geissStep_some o rng f.1 f.2.1 f.2.2.1 f.2.2.2.1 f.2.2.2.2 s
        (hdims f (List.mem_cons_self f t)).1 (hdims f (List.mem_cons_self f t)).2
      obtain ⟨s', hrun, hcb'⟩ := ih s1 (by omega)
        (fun g hg => hdims g (List.mem_cons_of_mem f hg))
      refine ⟨s', ?_, ?_⟩
      · rw [runGeiss, List.foldl_cons, Option.some_bind, hs1]
        rw [runGeiss] at hrun
        exact hrun
      · rw [hcb', hcb1, List.length_cons]
        omega

/-- C5 witness: the alternation applied to the fresh state and a concrete
two-frame schedule at canvas size 4 by 4. -/
theorem C5_buffer_swap_alternates_witness :
    ((∀ freq wave width height time st st',
      geissStep zeroOracle zeroRng freq wave width height time st = some st' →
        st'.currentBuffer = 1 - st.currentBuffer) ∧
    ∃ s', runGeiss zeroOracle zeroRng [([], [], 4, 4, 0), ([], [], 4, 4, 0)]
      (some geissInit) = some s' ∧
      s'.currentBuffer = (geissInit.currentBuffer + ([([], [], 4, 4, 0), ([], [], 4, 4, 0)] :
        List GFrame).length) % 2) :=
  C5_buffer_swap_alternates zeroOracle zeroRng _ geissInit (by decide)
    (by
      intro f hf
      have h4 : (1 : ℕ) ≤ (Int.floor ((4 : ℚ) / 2)).toNat := by
        rw [floor_q_4_2]
        omega
      simp only [List.mem_cons, List.not_mem_nil, or_false] at hf
      rcases hf with rfl | rfl <;> exact ⟨h4, h4⟩)

/-! Oscilloscope (src/visualizers/Oscilloscope.ts).  Stateless; the render
early-returns on an empty waveform, otherwise strokes the polyline of
per-sample points (the glow passes re-stroke the same points). -/

/-- Polyline points of one Oscilloscope render: sample i maps to
x = i * (width / M), y = height/2 + ((W[i] - 128) / 128) * (height * 0.4). -/
def oscPoints (waveform : List ℕ) (width height : ℚ) : List (ℚ × ℚ) :=
  (List.range waveform.length).map (fun (i : ℕ) =>
    ((i : ℚ) * (width / (waveform.length : ℚ)),
     height / 2 + (((waveform.getD i 0 : ℕ) : ℚ) - 128) / 128 * (height * (2/5))))

/-! Circular (src/visualizers/Circular.ts).  The only persistent state is
the rotation; the render early-returns on an empty snapshot before touching
it. -/

/-- Effect of one Circular render on the rotation state. -/
def circularStep (freq : List ℕ) (rotation : JQ) : JQ :=
  if freq.length = 0 then rotation
  else rotation + (some (1/100) + getBassAmplitude freq * some (1/20))

/-! Matrix (src/visualizers/Matrix.ts).  Characters are modelled by their
index into the 62-unit charSet string (the glyph identity is irrelevant to
the claims). -/

/-- Matrix column record (interface MatrixColumn). -/
structure MatrixColumn where
  x : ℚ
  y : JQ
  speed : ℚ
  chars : List ℕ
  len : ℕ
  hue : ℚ
deriving DecidableEq, Repr

/-- Matrix effect state: columns, last seen width, random cursor. -/
structure MatrixState where
  columns : List MatrixColumn
  lastWidth : ℚ
  rngIdx : ℕ

/-- Matrix.createColumn: random trail length in [10, 29], random characters,
top position (random above the fold only with randomY), random speed. -/
def createColumn (rng : ℕ → ℚ) (k : ℕ) (index : ℕ) (height : ℚ) (randomY : Bool) :
    MatrixColumn × ℕ :=
  let len := (Int.floor (rng k * 20)).toNat + 10
  let chars := (List.range len).map (fun i => (Int.floor (rng (k + 1 + i) * 62)).toNat)
  if randomY then
    ({ x := (index : ℚ) * 16, y := some (rng (k + 1 + len) * height - height),
       speed := rng (k + 2 + len) * 2 + 2, chars := chars, len := len, hue := 120 },
     k + 3 + len)
  else
    ({ x := (index : ℚ) * 16, y := some 0,
       speed := rng (k + 1 + len) * 2 + 2, chars := chars, len := len, hue := 120 },
     k + 2 + len)

/-- Matrix.initColumns: one column per floor(width / 16) horizontal slot,
all with random vertical offsets. -/
def initColumns (rng : ℕ → ℚ) (k : ℕ) (width height : ℚ) :
    List MatrixColumn × ℕ :=
  (List.range (Int.floor (width / 16)).toNat).foldl (fun acc i =>
    let c := createColumn rng acc.2 i height true
    (acc.1 ++ [c.1], c.2)) ([], k)

/-- Character-mutation pass over the visible part of one column: each
non-skipped trail position draws one random for the mutation test and a
second for the replacement character when the test fires. -/
def mutateChars (rng : ℕ → ℚ) (treble : JQ) (height : ℚ) (y2 : JQ) :
    ℕ → List ℕ → ℕ → List ℕ × ℕ
  | 0, chars, k => (chars, k)
  | n + 1, chars, k =>
      let j := chars.length - (n + 1)
      let charY := y2 - some ((j : ℚ) * 16)
      if JQ.lt charY (some (-16)) || JQ.lt (some (height + 16)) charY then
        mutateChars rng treble height y2 n chars k
      else if JQ.lt (some (rng k)) (some (1/100) + treble * some (1/20)) then
        mutateChars rng treble height y2 n
          (chars.set j ((Int.floor (rng (k + 1) * 62)).toNat)) (k + 2)
      else
        mutateChars rng treble height y2 n chars (k + 1)

/-- Per-column body of the Matrix render loop: advance y by the bass- and
bin-modulated speed, mutate visible characters, and respawn the column just
above the fold once fully below the surface. -/
def matrixColUpdate (rng : ℕ → ℚ) (freq : List ℕ) (height : ℚ)
    (bass treble : JQ) (numCols : ℕ) (i : ℕ) (col : MatrixColumn) (k : ℕ) :
    MatrixColumn × ℕ :=
  let freqValue := JQ.div (JQ.jsIndex freq ((i * freq.length) / (2 * numCols))) (some 255)
  let y2 := col.y + some col.speed * (some 1 + bass * some 3 + freqValue * some 2)
  let mc := mutateChars rng treble height y2 col.len col.chars k
  let col2 : MatrixColumn := { col with y := y2, chars := mc.1 }
  if JQ.lt (some height) (y2 - some ((col.len : ℚ) * 16)) then
    let c := createColumn rng mc.2 i height false
    ({ c.1 with y := some (-((c.1.len : ℚ) * 16)) }, c.2)
  else (col2, mc.2)

/-- Column loop of one Matrix render, threading the random cursor in index
order. -/
def matrixColsLoop (rng : ℕ → ℚ) (freq : List ℕ) (height : ℚ)
    (bass treble : JQ) (numCols : ℕ) :
    ℕ → List MatrixColumn → ℕ → List MatrixColumn × ℕ
  | _, [], k => ([], k)
  | i, c :: rest, k =>
      let r := matrixColUpdate rng freq height bass treble numCols i c k
      let rr := matrixColsLoop rng freq height bass treble numCols (i + 1) rest r.2
      (r.1 :: rr.1, rr.2)

/-- One Matrix.render call: reinitialize the columns when the slot count
changes (or when there are none), then run the column loop. -/
def matrixStep (rng : ℕ → ℚ) (freq : List ℕ) (width height time : ℚ)
    (s : MatrixState) : MatrixState :=
  let bass := getBassAmplitude freq
  let treble := getTrebleAmplitude freq
  let s1 : MatrixState :=
    if Int.floor (width / 16) ≠ Int.floor (s.lastWidth / 16) then
      let ic := initColumns rng s.rngIdx width height
      { columns := ic.1, lastWidth := width, rngIdx := ic.2 }
    else s
  let s2 : MatrixState :=
    if s1.columns.length = 0 then
      let ic := initColumns rng s1.rngIdx width height
      { columns := ic.1, lastWidth := width, rngIdx := ic.2 }
    else s1
  let r := matrixColsLoop rng freq height bass treble s2.columns.length 0
    s2.columns s2.rngIdx
  { columns := r.1, lastWidth := s2.lastWidth, rngIdx := r.2 }

/-! Plasma (src/visualizers/Plasma.ts in the Starfield source file).  The
per-pixel field uses the sine and square-root oracles; the state is the
low-resolution image buffer with its dimensions. -/

/-- Math.abs on a JavaScript number. -/
def jsAbs (a : JQ) : JQ := match a with
  | some q => some |q|
  | none => none

/-- Plasma effect state. -/
structure PlasmaState where
  lastWidth : ℕ
  lastHeight : ℕ
  imageData : Option (List ℕ)

/-- One low-resolution plasma pixel: four audio-modulated sine terms plus
two audio-reactive distortions, converted from HSL-like coordinates to RGB
bytes. -/
def plasmaPixel (o : TrigOracle) (bass mid treble average : JQ) (time : ℚ)
    (w h : ℕ) (x y : ℕ) : List ℕ :=
  let t1 := some time * (some (1/2 : ℚ) + bass * some 2)
  let t2 := some time * (some (7/10 : ℚ) + mid)
  let t3 := some time * (some (3/10 : ℚ) + treble * some (3/2))
  let scale1 := some (1/50 : ℚ) + average * some (1/50)
  let scale2 := some (3/100 : ℚ) + bass * some (3/100)
  let scale3 := some (3/200 : ℚ) + mid * some (1/50)
  let v1 := jqApp o.sinF (some (x : ℚ) * scale1 + t1)
  let v2 := jqApp o.sinF (some (y : ℚ) * scale2 + t2)
  let v3 := jqApp o.sinF (some (x : ℚ) * scale1 + some (y : ℚ) * scale2 + t1)
  let d : ℚ := o.sqrtF (((x : ℚ) - (w : ℚ)/2) ^ 2 + ((y : ℚ) - (h : ℚ)/2) ^ 2)
  let v4 := jqApp o.sinF (some d * scale3 + t3)
  let value0 := JQ.div (v1 + v2 + v3 + v4) (some 4)
  let value1 := value0 + jqApp o.sinF (some ((x : ℚ) * (1/10)) + bass * some 10) *
    bass * some (3/10)
  let value := value1 + jqApp o.sinF (some ((y : ℚ) * (1/10)) + mid * some 10) *
    mid * some (1/5)
  let hue := (value + some 1) * some 180 + some (time * 30)
  let saturation := some (4/5 : ℚ) + treble * some (1/5)
  let lightness := some (2/5 : ℚ) + average * some (3/10) + value * some (1/5)
  let c := (some 1 - jsAbs (some 2 * lightness - some 1)) * saturation
  let hue2 := JQ.div hue (some 60)
  let x2 := c * (some 1 - jsAbs (jsRem hue2 (some 2) - some 1))
  let m := lightness - JQ.div c (some 2)
  let rgb : JQ × JQ × JQ :=
    if JQ.lt hue2 (some 1) then (c, x2, some 0)
    else if JQ.lt hue2 (some 2) then (x2, c, some 0)
    else if JQ.lt hue2 (some 3) then (some 0, c, x2)
    else if JQ.lt hue2 (some 4) then (some 0, x2, c)
    else if JQ.lt hue2 (some 5) then (x2, some 0, c)
    else (c, some 0, x2)
  [u8Write ((rgb.1 + m) * some 255), u8Write ((rgb.2.1 + m) * some 255),
   u8Write ((rgb.2.2 + m) * some 255), 255]

/-- One Plasma.render call: recreate the low-resolution buffer when the
scaled dimensions changed, early-return when no buffer exists, otherwise
fill every pixel of the grid.  `ctx.createImageData(w, h)` throws
IndexSizeError when a scaled dimension is 0 (positive width or height below
4 on a size change), aborting the call, modeled as `none`. -/
def plasmaStep (o : TrigOracle) (freq : List ℕ) (width height time : ℚ)
    (s : PlasmaState) : Option PlasmaState :=
  let bass := getBassAmplitude freq
  let mid := getMidAmplitude freq
  let treble := getTrebleAmplitude freq
  let average := getAverageAmplitude freq
  let w := (Int.floor (width / 4)).toNat
  let h := (Int.floor (height / 4)).toNat
  let s1Alloc : Option PlasmaState :=
    if w ≠ s.lastWidth ∨ h ≠ s.lastHeight then
      if w = 0 ∨ h = 0 then none
      else some
        { lastWidth := w, lastHeight := h,
          imageData := some (List.replicate (4 * (w * h)) 0) }
    else some s
  s1Alloc.map (fun s1 =>
    match s1.imageData with
    | none => s1
    | some _ =>
        { s1 with imageData := some ((List.range (w * h)).foldr (fun i acc =>
            plasmaPixel o bass mid treble average time w h (i % w) (i / w) ++ acc) []) })

/-- Fresh Plasma state (field initializers of the class). -/
def plasmaInit : PlasmaState :=
  { lastWidth := 0, lastHeight := 0, imageData := none }

theorem floor_q_4_4 : (Int.floor ((4 : ℚ) / 4)).toNat = 1 := by
  have h : ((4 : ℚ) / 4) = ((1 : ℤ) : ℚ) := by norm_num
  rw [h, Int.floor_intCast]
  rfl

theorem floor_q_1_4 : (Int.floor ((1 : ℚ) / 4)).toNat = 0 := by
  have h : Int.floor ((1 : ℚ) / 4) = 0 := by
    rw [Int.floor_eq_zero_iff, Set.mem_Ico]
    constructor <;> norm_num
  rw [h]
  rfl

theorem floor_q_8_4 : (Int.floor ((8 : ℚ) / 4)).toNat = 2 := by
  have h : ((8 : ℚ) / 4) = ((2 : ℤ) : ℚ) := by norm_num
  rw [h, Int.floor_intCast]
  rfl

/-! Supporting lemmas for the empty-snapshot behavior of every effect. -/

theorem jq_add_none (a : JQ) : a + none = none := by cases a <;> rfl

theorem jq_mul_none (a : JQ) : a * none = none := by cases a <;> rfl

theorem jq_none_mul (a : JQ) : (none : JQ) * a = none := rfl

theorem starsLoop_length (speed : JQ) (rng : ℕ → ℚ) (l : List StarPt) (k : ℕ) :
    (starsLoop speed rng l k).1.length = l.length := by
  induction l generalizing k with
  | nil => rfl
  | cons s rest ih =>
      simp only [starsLoop, List.length_cons]
      rw [ih]

theorem matrixColUpdate_empty_y (rng : ℕ → ℚ) (height : ℚ) (treble : JQ)
    (numCols i k : ℕ) (col : MatrixColumn) :
    (matrixColUpdate rng [] height (some 0) treble numCols i col k).1.y = none := by
  have hfv : JQ.div (JQ.jsIndex [] ((i * List.length ([] : List ℕ)) / (2 * numCols)))
      (some 255) = none := rfl
  have hy2 : col.y + some col.speed *
      (some 1 + some 0 * some 3 +
        JQ.div (JQ.jsIndex [] ((i * List.length ([] : List ℕ)) / (2 * numCols))) (some 255) *
          some 2) = none := by
    rw [hfv, jq_none_mul, jq_add_none, jq_mul_none, jq_add_none]
  simp only [matrixColUpdate]
  rw [hy2]
  rw [show JQ.lt (some height) ((none : JQ) - some ((col.len : ℚ) * 16)) = false from rfl]
  simp

theorem matrixColsLoop_empty_y (rng : ℕ → ℚ) (height : ℚ) (treble : JQ)
    (numCols : ℕ) (cols : List MatrixColumn) (i k : ℕ) :
    ((matrixColsLoop rng [] height (some 0) treble numCols i cols k).1.all
      (fun c => decide (c.y = none))) = true := by
  induction cols generalizing i k with
  | nil => rfl
  | cons c rest ih =>
      simp only [matrixColsLoop, List.all_cons, Bool.and_eq_true]
      exact ⟨by rw [decide_eq_true_eq]; exact matrixColUpdate_empty_y rng height treble numCols i k c,
        ih (i + 1) _⟩

/-- C6 (amended): with zero-length frequency and waveform snapshots (device
not yet started) every one of the nine effects degrades gracefully instead
of throwing, provided the canvas clears the scaled allocation thresholds
(Geiss needs floor(width/2) and floor(height/2) positive, Plasma needs
floor(width/4) and floor(height/4) positive; below them the ImageData
constructors throw IndexSizeError even at positive sizes, see the 4-by-1
Plasma counterexample): Oscilloscope strokes an empty polyline; Spectrum
and Circular early-return leaving their state untouched; Particles spawns
nothing (its pool can only shrink, and lastBass resets to 0); Starfield
keeps exactly its star population; Plasma returns and maintains its scaled
buffer bookkeeping; Matrix columns survive with NaN positions (characters
drawn off any finite position, a degenerate frame, with no reads past the
snapshot); Terrain pushes a row of NaN heights (the undefined bin read
divided by 255); Geiss returns, skips the waveform strokes entirely yet
still warps and swaps its buffers.  Every array access each model performs
is in bounds or yields the harmless undefined/NaN, as in the source. -/
theorem C6_empty_snapshots_degrade_gracefully :
    (∀ width height : ℚ, oscPoints [] width height = []) ∧
    (∀ peaks : List JQ, spectrumStep [] peaks = peaks) ∧
    (∀ rotation : JQ, circularStep [] rotation = rotation) ∧
    (∀ (rng : ℕ → ℚ) (cosF sinF : ℚ → ℚ) (width height time : ℚ) (s : ParticlesState),
      (particlesStep rng cosF sinF [] width height time s).particles.length ≤
        s.particles.length ∧
      (particlesStep rng cosF sinF [] width height time s).lastBass = some 0) ∧
    (∀ (rng : ℕ → ℚ) (width height time : ℚ) (s : StarfieldState),
      (starfieldStep rng [] width height time s).stars.length = s.stars.length) ∧
    (∀ (o : TrigOracle) (width height time : ℚ) (s : PlasmaState),
      1 ≤ (Int.floor (width / 4)).toNat → 1 ≤ (Int.floor (height / 4)).toNat →
      ∃ s', plasmaStep o [] width height time s = some s' ∧
        s'.lastWidth = (Int.floor (width / 4)).toNat ∧
        s'.lastHeight = (Int.floor (height / 4)).toNat) ∧
    (∀ (rng : ℕ → ℚ) (width height time : ℚ) (s : MatrixState),
      ((matrixStep rng [] width height time s).columns.all
        (fun c => decide (c.y = none))) = true) ∧
    (terrainRow [] = List.replicate 64 none) ∧
    (∀ (o : TrigOracle) (rng : ℕ → ℚ) (width height time : ℚ) (s : GeissState),
      1 ≤ (Int.floor (width / 2)).toNat → 1 ≤ (Int.floor (height / 2)).toNat →
      ∃ s', geissStep o rng [] [] width height time s = some s' ∧
        s'.currentBuffer = 1 - s.currentBuffer) ∧
    (∀ (o : TrigOracle) (rng : ℕ → ℚ) (time : ℚ) (w h : ℕ) (bass : JQ)
      (data : List ℕ) (k : ℕ),
      drawWaveform o rng [] [] time w h bass data k = (data, k)) := by
  refine ⟨?_, ?_, ?_, ?_, ?_, ?_, ?_, ?_, ?_, ?_⟩
  · intro width height
    simp [oscPoints]
  · intro peaks
    simp [spectrumStep]
  · intro rotation
    simp [circularStep]
  · intro rng cosF sinF width height time s
    have hb : getBassAmplitude [] = some 0 := rfl
    have hm : getMidAmplitude [] = some 0 := rfl
    have ht : getTrebleAmplitude [] = some 0 := rfl
    have ha : getAverageAmplitude [] = some 0 := rfl
    constructor
    · simp only [particlesStep, hb, hm, ht, ha, lt_half_zero, Bool.false_and,
        Bool.false_eq_true, if_false, spawnRate_quiet, regularLoop]
      exact updateLoop_length_le _ _ _ _ _ _ _ _
    · simp only [particlesStep, hb, hm, ht, ha]
  · intro rng width height time s
    simp only [starfieldStep]
    rw [starsLoop_length]
    exact List.length_mergeSort _
  · intro o width height time s hw hh
    by_cases hc : ((Int.floor (width / 4)).toNat ≠ s.lastWidth ∨
        (Int.floor (height / 4)).toNat ≠ s.lastHeight)
    · simp only [plasmaStep]
      rw [if_pos hc, if_neg (by omega :
        ¬((Int.floor (width / 4)).toNat = 0 ∨ (Int.floor (height / 4)).toNat = 0))]
      exact ⟨_, rfl, rfl, rfl⟩
    · push_neg at hc
      obtain ⟨hwid, hht⟩ := hc
      simp only [plasmaStep]
      rw [if_neg (fun hor => hor.elim (fun h1 => h1 hwid) (fun h2 => h2 hht))]
      simp only [Option.map_some']
      cases himg : s.imageData with
      | none => exact ⟨s, rfl, hwid.symm, hht.symm⟩
      | some d => exact ⟨_, rfl, hwid.symm, hht.symm⟩
  · intro rng width height time s
    simp only [matrixStep]
    exact matrixColsLoop_empty_y _ _ _ _ _ _ _
  · simp only [terrainRow, List.length_nil]
    rw [show (fun i => JQ.div (JQ.jsIndex [] ((3 * i * 0) / 320)) (some 255)) =
      (fun (i : ℕ) => (none : JQ)) from rfl]
    rw [List.map_const']
    simp
  · intro o rng width height time s hw hh
    exact geissStep_some o rng [] [] width height time s hw hh
  · intro o rng time w h bass data k
    rfl

/-- C6 counterexample: positive canvas sizes alone do not prevent a throw
inside the claimed domain.  A fresh Plasma render at canvas size 4 by 1
(width and height both positive) changes the scaled size to 1 by 0, so the
resize branch calls createImageData(1, 0), which throws IndexSizeError;
the model returns none.  (Geiss likewise throws at positive dimensions
below 2, see the Geiss small-canvas counterexample.) -/
theorem C6_small_canvas_counterexample :
    plasmaStep zeroOracle [] 4 1 0 plasmaInit = none := by
  simp only [plasmaStep, plasmaInit, floor_q_4_4, floor_q_1_4]
  simp

/-- C6 witness: the guarded Plasma and Geiss clauses instantiated at
concrete canvas sizes above the allocation thresholds (8 by 8 and 4 by 4
on the fresh states), with the size hypotheses discharged by computing the
floors. -/
theorem C6_empty_snapshots_degrade_gracefully_witness :
    (∃ s', plasmaStep zeroOracle [] 8 8 0 plasmaInit = some s' ∧
      s'.lastWidth = (Int.floor ((8 : ℚ) / 4)).toNat ∧
      s'.lastHeight = (Int.floor ((8 : ℚ) / 4)).toNat) ∧
    (∃ s', geissStep zeroOracle zeroRng [] [] 4 4 0 geissInit = some s' ∧
      s'.currentBuffer = 1 - geissInit.currentBuffer) :=
  ⟨C6_empty_snapshots_degrade_gracefully.2.2.2.2.2.1 zeroOracle 8 8 0 plasmaInit
      (by rw [floor_q_8_4]; omega) (by rw [floor_q_8_4]; omega),
   C6_empty_snapshots_degrade_gracefully.2.2.2.2.2.2.2.2.1 zeroOracle zeroRng 4 4 0 geissInit
      (by rw [floor_q_4_2]; omega) (by rw [floor_q_4_2]; omega)⟩
